import Mathlib

/-! Flappy-Bomb-2: a shallow embedding of `script.js`.

The module-level variables of `script.js` become one `State` record and every
function of the script becomes a pure function on that record.

Modelling conventions.

* JavaScript numbers are modelled as rationals (`ℚ`); `Math.round x` is
  `⌊x + 1/2⌋` and `Math.floor x` is `⌊x⌋`.
* In `createPipes` the decimal literals and the products and the difference that
  are not integers are rounded to the nearest double (`fl64`), because there the
  rounding decides which integer `Math.round` returns (`690 * 0.35` is
  `241.49999999999997`). Sums and differences of integers are exact in doubles
  (below `2 ^ 53`) and are left exact. Elsewhere the arithmetic is exact.
* `window.innerWidth`, `window.innerHeight` and `birdEl.offsetHeight` are
  non-negative integers supplied by the environment (`Env`).
* `birdEl.getBoundingClientRect()` is computed by the layout engine, which is
  not part of the script: it is a parameter of the environment.
* A `.pipe_sprite` element is a `Pipe`; its bounding rectangle is read off its
  inline style (`left`, `top`, `width`, `height`).
* `requestAnimationFrame` / `cancelAnimationFrame` are modelled by a counter of
  handles and the list of callbacks that are currently scheduled.
* Audio playback, the message box and the sprite image source are sinks that no
  function reads back; they are left out of the state.
-/

namespace FlappyBomb

/-! ## Data model -/

/-- The value of `gameState`: `'Start' | 'Play' | 'End'`. -/
inductive GameState where
  | Start
  | Play
  | End
  deriving DecidableEq, Repr

/-- The three functions the script hands to `requestAnimationFrame`. -/
inductive Callback where
  | movePipes
  | applyGravity
  | createPipes
  deriving DecidableEq, Repr

/-- A `DOMRect`: the fields `isCollision` and `movePipes` read. -/
structure Rect where
  left : ℚ
  top : ℚ
  width : ℚ
  height : ℚ
  deriving DecidableEq, Repr

/-- The getter `DOMRect.right` of a box of non-negative width. -/
def Rect.right (r : Rect) : ℚ := r.left + r.width

/-- A `.pipe_sprite` element: its inline style in pixels and the expando
property `increaseScore` (`none` is `undefined`). -/
structure Pipe where
  left : ℚ
  top : ℚ
  width : ℚ
  height : ℚ
  increaseScore : Option String
  deriving DecidableEq, Repr

/-- The call `pipe.getBoundingClientRect()`. -/
def Pipe.getBoundingClientRect (p : Pipe) : Rect :=
  { left := p.left, top := p.top, width := p.width, height := p.height }

/-- The module-level variables of the script, the part of the document it
writes, and the browser's table of scheduled animation-frame callbacks. -/
structure State where
  gameState : GameState
  birdY : ℚ
  birdDy : ℚ
  score : ℕ
  rafMovePipes : Option ℕ
  rafGravity : Option ℕ
  rafCreatePipes : Option ℕ
  pipeTimer : ℕ
  /-- The elements `document.querySelectorAll('.pipe_sprite')` returns, in document order. -/
  pipes : List Pipe
  /-- The style `birdEl.style.top`, in pixels. -/
  birdTop : ℚ
  /-- The style `birdEl.style.left`, in pixels. -/
  birdLeft : ℚ
  /-- The angle of `birdEl.style.transform`, in degrees. -/
  birdDeg : ℚ
  /-- Whether `img.style.display` is `'block'` (otherwise `'none'`). -/
  imgShown : Bool
  /-- The number shown in `scoreValEl`. -/
  scoreShown : ℕ
  /-- The last handle `requestAnimationFrame` returned. -/
  lastHandle : ℕ
  /-- The callbacks waiting for the next animation frame, with their handles. -/
  scheduled : List (ℕ × Callback)
  deriving DecidableEq, Repr

/-- What the script reads from the browser. -/
structure Env where
  /-- The value of `window.innerWidth`. -/
  vw : ℕ
  /-- The value of `window.innerHeight`. -/
  vh : ℕ
  /-- The value of `birdEl.offsetHeight`. -/
  offsetHeight : ℕ
  /-- The value of `birdEl.getBoundingClientRect()` in a given state. -/
  birdRect : State → Rect

/-- The state right after the script has been loaded. -/
def State.init : State :=
  { gameState := .Start, birdY := 0, birdDy := 0, score := 0,
    rafMovePipes := none, rafGravity := none, rafCreatePipes := none,
    pipeTimer := 0, pipes := [], birdTop := 0, birdLeft := 0, birdDeg := 0,
    imgShown := false, scoreShown := 0, lastHandle := 0, scheduled := [] }

/-! ## Constants -/

/-- The pipe speed `moveSpeed = 1.0`. -/
def moveSpeed : ℚ := 1

/-- The constant `gravity = 0.19`. -/
def gravity : ℚ := 19 / 100

/-- The constant `flapPower = -5.5`. -/
def flapPower : ℚ := -11 / 2

/-- The function `Math.round`: the nearest integer, halves rounded up. -/
def mathRound (x : ℚ) : ℤ := ⌊x + 1 / 2⌋

/-- The function `Math.floor`. -/
def mathFloor (x : ℚ) : ℤ := ⌊x⌋

/-- Rounding to the nearest integer, a tie going to the even one. -/
def roundHalfEven (x : ℚ) : ℤ :=
  if x - ⌊x⌋ < 1 / 2 then ⌊x⌋
  else if 1 / 2 < x - ⌊x⌋ then ⌊x⌋ + 1
  else if ⌊x⌋ % 2 = 0 then ⌊x⌋ else ⌊x⌋ + 1

/-- The double nearest to `x`: round to nearest with a significand of 53 bits, a
tie going to the even significand (the exponent range is not bounded). It is
the value of a decimal literal and the result of a product or difference. -/
def fl64 (x : ℚ) : ℚ :=
  if x = 0 then 0
  else (roundHalfEven (x / 2 ^ (Int.log 2 |x| - 52)) : ℚ) * 2 ^ (Int.log 2 |x| - 52)

/-- What `Math.random()` returns: a double in `[0, 1)`. -/
def isRandomDraw (rand : ℚ) : Prop :=
  0 ≤ rand ∧ rand < 1 ∧ fl64 rand = rand

/-! ## Animation frames -/

/-- The call `requestAnimationFrame(cb)`: a fresh non-zero handle, and the
callback is scheduled under it. -/
def requestAnimationFrame (cb : Callback) (s : State) : ℕ × State :=
  let h := s.lastHandle + 1
  (h, { s with lastHandle := h, scheduled := s.scheduled ++ [(h, cb)] })

/-- The call `cancelAnimationFrame(h)`. -/
def cancelAnimationFrame (h : ℕ) (s : State) : State :=
  { s with scheduled := s.scheduled.filter (fun e => decide (e.1 ≠ h)) }

/-- The statement `if (raf) cancelAnimationFrame(raf)`: `null` and `0` are falsy. -/
def cancelIfSet (raf : Option ℕ) (s : State) : State :=
  match raf with
  | some h => if h ≠ 0 then cancelAnimationFrame h s else s
  | none => s

/-- The function `cancelLoops`. -/
def cancelLoops (s : State) : State :=
  let s1 := cancelIfSet s.rafMovePipes s
  let s2 := cancelIfSet s1.rafGravity s1
  let s3 := cancelIfSet s2.rafCreatePipes s2
  { s3 with rafMovePipes := none, rafGravity := none, rafCreatePipes := none }

/-! ## Lifecycle -/

/-- The function `gameOver`. -/
def gameOver (s : State) : State :=
  if s.gameState = .End then s
  else cancelLoops { s with gameState := .End, imgShown := false }

/-- The function `flap`. -/
def flap (s : State) : State :=
  { s with birdDy := flapPower }

/-- The function `startGame`. -/
def startGame (env : Env) (s : State) : State :=
  let birdY : ℚ := mathRound (env.vh * (45 / 100))
  let s1 : State :=
    { s with
      pipes := []
      gameState := .Play
      score := 0
      scoreShown := 0
      imgShown := true
      birdY := birdY
      birdDy := 0
      birdTop := birdY
      birdLeft := max 20 (mathRound (env.vw * (25 / 100)) : ℚ)
      birdDeg := 0 }
  let s2 := cancelLoops s1
  let s3 := (requestAnimationFrame .movePipes s2).2
  let s4 := (requestAnimationFrame .applyGravity s3).2
  (requestAnimationFrame .createPipes s4).2

/-- The function `handleInput`. -/
def handleInput (env : Env) (s : State) : State :=
  if s.gameState = .Start ∨ s.gameState = .End then startGame env s
  else if s.gameState = .Play then flap s
  else s

/-! ## Collision -/

/-- The function `isCollision`. -/
def isCollision (rectA rectB : Rect) : Bool :=
  decide (rectA.left < rectB.left + rectB.width) &&
  decide (rectA.left + rectA.width > rectB.left) &&
  decide (rectA.top < rectB.top + rectB.height) &&
  decide (rectA.top + rectA.height > rectB.top)

/-! ## Pipe movement -/

/-- The body of the `forEach` callback of `movePipes`, run on one pipe: the
state afterwards and the pipe afterwards (`none` when it was removed). A
`return` inside the callback ends the callback only. -/
def movePipesEach (env : Env) (s : State) (pipe : Pipe) : State × Option Pipe :=
  let rect := pipe.getBoundingClientRect
  let newLeft := rect.left - moveSpeed
  let pipe1 : Pipe := { pipe with left := newLeft }
  if rect.right ≤ 0 then (s, none)
  else
    let birdRect := env.birdRect s
    if isCollision birdRect rect then (gameOver s, some pipe1)
    else if pipe1.increaseScore = some "1" then
      if rect.right < birdRect.left then
        ({ s with score := s.score + 1, scoreShown := s.score + 1 },
          some { pipe1 with increaseScore := some "0" })
      else (s, some pipe1)
    else (s, some pipe1)

/-- The loop `document.querySelectorAll('.pipe_sprite').forEach(...)` over the
static list of pipes: the state afterwards and the pipes left in the document. -/
def forEachPipe (env : Env) : State → List Pipe → State × List Pipe
  | s, [] => (s, [])
  | s, pipe :: rest =>
    let r1 := movePipesEach env s pipe
    let r2 := forEachPipe env r1.1 rest
    (r2.1, r1.2.toList ++ r2.2)

/-- The function `movePipes`. -/
def movePipes (env : Env) (s : State) : State :=
  if s.gameState ≠ .Play then s
  else
    let r := forEachPipe env s s.pipes
    let s1 : State := { r.1 with pipes := r.2 }
    let q := requestAnimationFrame .movePipes s1
    { q.2 with rafMovePipes := some q.1 }

/-! ## Gravity -/

/-- The function `applyGravity`. -/
def applyGravity (env : Env) (s : State) : State :=
  if s.gameState ≠ .Play then s
  else
    let vh : ℚ := env.vh
    let dy0 := s.birdDy + gravity
    let y0 := s.birdY + dy0
    let y1 := if y0 ≤ 0 then 0 else y0
    let dy1 := if y0 ≤ 0 then 0 else dy0
    if y1 + env.offsetHeight ≥ vh then
      gameOver { s with birdDy := dy1, birdY := vh - env.offsetHeight,
                        birdTop := vh - env.offsetHeight }
    else
      let deg := min (max (dy1 * 3) (-30)) 60
      let s1 : State := { s with birdDy := dy1, birdY := y1, birdTop := y1, birdDeg := deg }
      let q := requestAnimationFrame .applyGravity s1
      { q.2 with rafGravity := some q.1 }

/-! ## Pipe creation -/

/-- The width `pipeWidth` computed by `createPipes`:
`Math.round(Math.max(60, vw * 0.12))`. -/
def pipeWidthOf (vw : ℕ) : ℚ := mathRound (max 60 (fl64 ((vw : ℚ) * fl64 (12 / 100))))

/-- The height `pipeHeight` computed by `createPipes`: `Math.round(vh * 0.9)`. -/
def pipeHeightOf (vh : ℕ) : ℚ := mathRound (fl64 ((vh : ℚ) * fl64 (9 / 10)))

/-- The gap `pipeGap` computed by `createPipes`: `Math.round(vh * 0.35)`. -/
def pipeGapOf (vh : ℕ) : ℚ := mathRound (fl64 ((vh : ℚ) * fl64 (35 / 100)))

/-- The bound `gapTopMin` computed by `createPipes`: `Math.round(vh * 0.12)`. -/
def gapTopMinOf (vh : ℕ) : ℚ := mathRound (fl64 ((vh : ℚ) * fl64 (12 / 100)))

/-- The bound `gapTopMax` computed by `createPipes`:
`Math.round(vh * 0.60 - pipeGap)`. -/
def gapTopMaxOf (vh : ℕ) : ℚ :=
  mathRound (fl64 (fl64 ((vh : ℚ) * fl64 (60 / 100)) - pipeGapOf vh))

/-- The position `gapTop` computed by `createPipes` from the draw `rand` of
`Math.random()`:
`Math.floor(rand * (Math.max(1, gapTopMax - gapTopMin) + 1)) + gapTopMin`. -/
def gapTopOf (vh : ℕ) (rand : ℚ) : ℚ :=
  mathFloor (fl64 (rand * (max 1 (gapTopMaxOf vh - gapTopMinOf vh) + 1))) + gapTopMinOf vh

/-- The element `topPipe` built by `createPipes`. -/
def topPipeOf (env : Env) (rand : ℚ) : Pipe :=
  { left := env.vw, top := gapTopOf env.vh rand - pipeHeightOf env.vh,
    width := pipeWidthOf env.vw, height := pipeHeightOf env.vh, increaseScore := none }

/-- The element `bottomPipe` built by `createPipes`. -/
def bottomPipeOf (env : Env) (rand : ℚ) : Pipe :=
  { left := env.vw, top := gapTopOf env.vh rand + pipeGapOf env.vh,
    width := pipeWidthOf env.vw, height := pipeHeightOf env.vh, increaseScore := some "1" }

/-- The function `createPipes`; `rand` is the value `Math.random()` returns
when the function draws one. -/
def createPipes (env : Env) (rand : ℚ) (s : State) : State :=
  if s.gameState ≠ .Play then s
  else
    let t := s.pipeTimer + 1
    let s1 : State :=
      if t > 120 then
        { s with pipeTimer := 0, pipes := s.pipes ++ [topPipeOf env rand, bottomPipeOf env rand] }
      else { s with pipeTimer := t }
    let q := requestAnimationFrame .createPipes s1
    { q.2 with rafCreatePipes := some q.1 }

/-! ## Resize -/

/-- The `resize` listener. -/
def onResize (env : Env) (s : State) : State :=
  if s.birdY + env.offsetHeight > (env.vh : ℚ) then
    let y : ℚ := max 0 ((env.vh : ℚ) - env.offsetHeight)
    { s with birdY := y, birdTop := y }
  else s

/-! ## Running the callbacks repeatedly -/

/-- The state after `n` consecutive calls of `applyGravity` (no other code in between). -/
def gravityTicks (env : Env) (n : ℕ) (s : State) : State :=
  (applyGravity env)^[n] s

/-- The state after `n` consecutive calls of `movePipes` (no other code in between). -/
def movePipesTicks (env : Env) (n : ℕ) (s : State) : State :=
  (movePipes env)^[n] s

/-- The state after `n` consecutive calls of `createPipes`; call number `k`
(counted from 0) would draw `rands k` from `Math.random()`. -/
def createPipesTicks (env : Env) (rands : ℕ → ℚ) : ℕ → State → State
  | 0, s => s
  | n + 1, s => createPipes env (rands n) (createPipesTicks env rands n s)

/-- The callback of `movePipes` run on the followed pipe, if it is still in the
document. -/
def callbackOn (env : Env) (s : State) : Option Pipe → State × Option Pipe
  | some q => movePipesEach env s q
  | none => (s, none)

/-- One pipe of the document followed through passes of `movePipes`: the pipes
ahead of it in document order, the pipe itself (`none` once it has been
removed) and the pipes behind it. -/
structure Followed where
  ahead : List Pipe
  pipe : Option Pipe
  behind : List Pipe

/-- The document before pass `n` of `movePipes`, when it listed `pre ++ p :: post`
in state `s0` and `p` is the pipe followed. A pass that finds the phase different
from `Play` returns at once and changes nothing; a pass in phase `Play` runs the
callback on the pipes ahead, then on the followed pipe, then on the pipes behind. -/
def follow (env : Env) (s0 : State) (pre : List Pipe) (p : Pipe) (post : List Pipe) :
    ℕ → Followed
  | 0 => { ahead := pre, pipe := some p, behind := post }
  | n + 1 =>
    let t := follow env s0 pre p post n
    let s := movePipesTicks env n s0
    if s.gameState ≠ .Play then t
    else
      let r1 := forEachPipe env s t.ahead
      let r2 := callbackOn env r1.1 t.pipe
      let r3 := forEachPipe env r2.1 t.behind
      { ahead := r1.2, pipe := r2.2, behind := r3.2 }

/-- The state in which pass `n` of `movePipes` runs the callback on the followed
pipe: the loop has gone over the pipes ahead of it. -/
def stateAtPipe (env : Env) (s0 : State) (pre : List Pipe) (p : Pipe) (post : List Pipe)
    (n : ℕ) : State :=
  (forEachPipe env (movePipesTicks env n s0) (follow env s0 pre p post n).ahead).1

/-- What pass `n` of `movePipes` adds to `score` while its loop is on the followed
pipe: the score after the callback minus the score before it (nothing when the
pass is not executed or the pipe is no longer in the document). -/
def scoreAdded (env : Env) (s0 : State) (pre : List Pipe) (p : Pipe) (post : List Pipe)
    (n : ℕ) : ℤ :=
  if (movePipesTicks env n s0).gameState ≠ .Play then 0
  else
    ((callbackOn env (stateAtPipe env s0 pre p post n)
        (follow env s0 pre p post n).pipe).1.score : ℤ) -
      ((stateAtPipe env s0 pre p post n).score : ℤ)

/-- What one pass of `movePipes` does to the bounding rectangles of the pipes in
the document: a pipe whose right edge is at or left of 0 is gone, every other
pipe is `moveSpeed` further left. -/
def passRects (rects : List Rect) : List Rect :=
  (rects.filter (fun r => decide (0 < r.right))).map
    (fun r => { r with left := r.left - moveSpeed })

/-! ## The overlap of two rectangles, as the specification words it -/

/-- The length of the common part of the horizontal extents of two rectangles
(negative or zero when they have none). -/
def overlapX (a b : Rect) : ℚ :=
  min (a.left + a.width) (b.left + b.width) - max a.left b.left

/-- The length of the common part of the vertical extents of two rectangles
(negative or zero when they have none). -/
def overlapY (a b : Rect) : ℚ :=
  min (a.top + a.height) (b.top + b.height) - max a.top b.top

/-- The area of the intersection of two rectangles. -/
def intersectionArea (a b : Rect) : ℚ :=
  max 0 (overlapX a b) * max 0 (overlapY a b)

/-! ## Fixtures -/

/-- A viewport of 800 by 600 pixels and a 50 by 40 bird whose box sits at (200, 270). -/
def fixtureEnv : Env :=
  { vw := 800, vh := 600, offsetHeight := 40,
    birdRect := fun _ => { left := 200, top := 270, width := 50, height := 40 } }

/-- A viewport 690 pixels high, where `vh * 0.35` falls just below a half. -/
def tieEnv : Env :=
  { vw := 800, vh := 690, offsetHeight := 40,
    birdRect := fun _ => { left := 200, top := 310, width := 50, height := 40 } }

/-- A viewport 10000 pixels high. -/
def tallEnv : Env :=
  { vw := 800, vh := 10000, offsetHeight := 40,
    birdRect := fun _ => { left := 200, top := 4500, width := 50, height := 40 } }

/-- A layout in which the left edge of the bird's box is half a pixel from the
left edge of the screen. -/
def edgeEnv : Env :=
  { vw := 800, vh := 600, offsetHeight := 40,
    birdRect := fun _ => { left := 1 / 2, top := 270, width := 50, height := 40 } }

/-- A running game with one flagged pipe (the bottom barrier of a pair) whose
right edge is one pixel from the left edge of the screen. -/
def pipeAtEdge : State :=
  { State.init with
    gameState := .Play, birdY := 270, birdTop := 270, imgShown := true,
    pipes := [{ left := -95, top := 321, width := 96, height := 540, increaseScore := some "1" }] }

/-- A running game with an older pair that the bird has passed and a newer pair
whose bottom barrier has its right edge at 200.5, the bird of `fixtureEnv`
having its left edge at 200. -/
def twoPairs : State :=
  { State.init with
    gameState := .Play, birdY := 270, birdTop := 270, birdLeft := 200, imgShown := true, score := 1,
    scoreShown := 1,
    pipes := [{ left := -17, top := -429, width := 96, height := 540, increaseScore := none },
              { left := -17, top := 321, width := 96, height := 540, increaseScore := some "0" },
              { left := 209 / 2, top := -429, width := 96, height := 540, increaseScore := none },
              { left := 209 / 2, top := 321, width := 96, height := 540, increaseScore := some "1" }] }

/-- A running game with the bird at the ceiling, right after a flap. -/
def flapAtCeiling : State :=
  { State.init with gameState := .Play, birdY := 0, birdDy := flapPower }

/-- A running game with one pipe that overlaps the bird of `fixtureEnv`. -/
def pipeOnBird : State :=
  { State.init with
    gameState := .Play, birdY := 270, birdTop := 270, birdLeft := 200, imgShown := true,
    rafMovePipes := some 4, rafGravity := some 5, rafCreatePipes := some 6, lastHandle := 6,
    scheduled := [(4, .movePipes), (5, .applyGravity), (6, .createPipes)],
    pipes := [{ left := 220, top := 300, width := 96, height := 540, increaseScore := some "1" }] }

/-- A running game whose spawn timer has reached 120: the next call of `createPipes` spawns. -/
def aboutToSpawn : State :=
  { State.init with gameState := .Play, birdY := 270, pipeTimer := 120 }

/-! ## Helper lemmas: what the frame and lifecycle functions leave alone -/

theorem cancelIfSet_eq (raf : Option ℕ) (s : State) :
    cancelIfSet raf s = { s with scheduled := (cancelIfSet raf s).scheduled } := by
  unfold cancelIfSet
  split
  · split <;> rfl
  · rfl

theorem cancelLoops_eq (s : State) :
    cancelLoops s =
      { s with rafMovePipes := none, rafGravity := none, rafCreatePipes := none,
               scheduled := (cancelLoops s).scheduled } := by
  unfold cancelLoops
  simp only []
  rw [cancelIfSet_eq (cancelIfSet _ _).rafCreatePipes,
    cancelIfSet_eq (cancelIfSet _ _).rafGravity, cancelIfSet_eq s.rafMovePipes]

theorem gameOver_eq (s : State) (h : s.gameState ≠ .End) :
    gameOver s =
      { s with gameState := .End, imgShown := false, rafMovePipes := none,
               rafGravity := none, rafCreatePipes := none,
               scheduled := (gameOver s).scheduled } := by
  unfold gameOver
  rw [if_neg h, cancelLoops_eq]

@[simp]
theorem gameOver_gameState (s : State) : (gameOver s).gameState = .End := by
  by_cases h : s.gameState = .End
  · simp [gameOver, h]
  · rw [gameOver_eq s h]

@[simp]
theorem gameOver_birdY (s : State) : (gameOver s).birdY = s.birdY := by
  by_cases h : s.gameState = .End
  · simp [gameOver, h]
  · rw [gameOver_eq s h]

@[simp]
theorem gameOver_birdDy (s : State) : (gameOver s).birdDy = s.birdDy := by
  by_cases h : s.gameState = .End
  · simp [gameOver, h]
  · rw [gameOver_eq s h]

@[simp]
theorem gameOver_score (s : State) : (gameOver s).score = s.score := by
  by_cases h : s.gameState = .End
  · simp [gameOver, h]
  · rw [gameOver_eq s h]

@[simp]
theorem gameOver_lastHandle (s : State) : (gameOver s).lastHandle = s.lastHandle := by
  by_cases h : s.gameState = .End
  · simp [gameOver, h]
  · rw [gameOver_eq s h]

theorem startGame_eq (env : Env) (s : State) :
    startGame env s =
      { s with
        pipes := []
        gameState := .Play
        score := 0
        scoreShown := 0
        imgShown := true
        birdY := mathRound (env.vh * (45 / 100))
        birdDy := 0
        birdTop := mathRound (env.vh * (45 / 100))
        birdLeft := max 20 (mathRound (env.vw * (25 / 100)) : ℚ)
        birdDeg := 0
        rafMovePipes := none
        rafGravity := none
        rafCreatePipes := none
        lastHandle := s.lastHandle + 3
        scheduled := (startGame env s).scheduled } := by
  unfold startGame
  simp only []
  rw [cancelLoops_eq]
  simp [requestAnimationFrame]

/-! ## Rounding to the nearest double -/

theorem roundHalfEven_abs_sub_le (x : ℚ) : |(roundHalfEven x : ℚ) - x| ≤ 1 / 2 := by
  have h1 := Int.floor_le x
  have h2 := Int.lt_floor_add_one x
  unfold roundHalfEven
  rw [abs_le]
  split_ifs with a b c
  · constructor <;> linarith
  · push_cast; constructor <;> linarith
  · constructor <;> linarith
  · push_cast; constructor <;> linarith

theorem roundHalfEven_eq (x : ℚ) (N : ℤ) (h : |x - N| < 1 / 2) : roundHalfEven x = N := by
  rw [abs_lt] at h
  have hz := roundHalfEven_abs_sub_le x
  rw [abs_le] at hz
  have h3 : ((roundHalfEven x - N : ℤ) : ℚ) < ((1 : ℤ) : ℚ) := by
    push_cast; linarith [hz.2, h.1]
  have h4 : ((-1 : ℤ) : ℚ) < ((roundHalfEven x - N : ℤ) : ℚ) := by
    push_cast; linarith [hz.1, h.2]
  have h5 := Int.cast_lt.mp h3
  have h6 := Int.cast_lt.mp h4
  omega

/-- The relative error of rounding to a double is at most `2 ^ (-53)`. -/
theorem fl64_abs_sub_le (x : ℚ) : |fl64 x - x| ≤ |x| / 2 ^ 53 := by
  unfold fl64
  split_ifs with h0
  · simp [h0]
  · have hx : 0 < |x| := abs_pos.mpr h0
    have hL := Int.zpow_log_le_self (b := 2) (by norm_num) hx
    have hp : (0 : ℚ) < 2 ^ (Int.log 2 |x| - 52) := zpow_pos (by norm_num) _
    have hr := roundHalfEven_abs_sub_le (x / 2 ^ (Int.log 2 |x| - 52))
    have hsplit : (2 : ℚ) ^ (Int.log 2 |x| - 52) = 2 ^ Int.log 2 |x| / 2 ^ 52 := by
      rw [zpow_sub₀ (by norm_num : (2 : ℚ) ≠ 0)]
      norm_num
    have heq : (roundHalfEven (x / 2 ^ (Int.log 2 |x| - 52)) : ℚ) * 2 ^ (Int.log 2 |x| - 52) - x =
        ((roundHalfEven (x / 2 ^ (Int.log 2 |x| - 52)) : ℚ) - x / 2 ^ (Int.log 2 |x| - 52)) *
          2 ^ (Int.log 2 |x| - 52) := by
      field_simp
    rw [heq, abs_mul, abs_of_pos hp]
    calc |(roundHalfEven (x / 2 ^ (Int.log 2 |x| - 52)) : ℚ) - x / 2 ^ (Int.log 2 |x| - 52)| *
          2 ^ (Int.log 2 |x| - 52)
        ≤ 1 / 2 * 2 ^ (Int.log 2 |x| - 52) := mul_le_mul_of_nonneg_right hr hp.le
      _ = 2 ^ Int.log 2 |x| / 2 ^ 53 := by rw [hsplit]; ring
      _ ≤ |x| / 2 ^ 53 := by
        apply div_le_div_of_nonneg_right hL
        positivity

theorem fl64_le (x : ℚ) (hx : 0 ≤ x) : fl64 x ≤ x * (1 + 1 / 2 ^ 53) := by
  have h := fl64_abs_sub_le x
  rw [abs_of_nonneg hx, abs_le] at h
  linarith [h.2]

theorem fl64_ge (x : ℚ) (hx : 0 ≤ x) : x * (1 - 1 / 2 ^ 53) ≤ fl64 x := by
  have h := fl64_abs_sub_le x
  rw [abs_of_nonneg hx, abs_le] at h
  linarith [h.1]

theorem fl64_nonneg (x : ℚ) (hx : 0 ≤ x) : 0 ≤ fl64 x := by
  have h := fl64_ge x hx
  have : 0 ≤ x * (1 - 1 / 2 ^ 53) := mul_nonneg hx (by norm_num)
  linarith

/-- The product of an integer and a decimal literal, both roundings included. -/
theorem fl64_mul_bounds (n : ℕ) (c : ℚ) (hc : 0 ≤ c) :
    0 ≤ fl64 ((n : ℚ) * fl64 c) ∧
    (n : ℚ) * c * (1 - 1 / 2 ^ 50) ≤ fl64 ((n : ℚ) * fl64 c) ∧
    fl64 ((n : ℚ) * fl64 c) ≤ (n : ℚ) * c * (1 + 1 / 2 ^ 50) := by
  have hn : (0 : ℚ) ≤ n := Nat.cast_nonneg n
  have c0 := fl64_nonneg c hc
  have c1 := fl64_le c hc
  have c2 := fl64_ge c hc
  have p0 : 0 ≤ (n : ℚ) * fl64 c := mul_nonneg hn c0
  have p1 := fl64_le _ p0
  have p2 := fl64_ge _ p0
  have q1 : (n : ℚ) * fl64 c ≤ n * (c * (1 + 1 / 2 ^ 53)) := mul_le_mul_of_nonneg_left c1 hn
  have q2 : (n : ℚ) * (c * (1 - 1 / 2 ^ 53)) ≤ n * fl64 c := mul_le_mul_of_nonneg_left c2 hn
  have hnc : 0 ≤ (n : ℚ) * c := mul_nonneg hn hc
  refine ⟨fl64_nonneg _ p0, ?_, ?_⟩
  · have r2 : (n : ℚ) * (c * (1 - 1 / 2 ^ 53)) * (1 - 1 / 2 ^ 53) ≤
        n * fl64 c * (1 - 1 / 2 ^ 53) := mul_le_mul_of_nonneg_right q2 (by norm_num)
    have e : (n : ℚ) * (c * (1 - 1 / 2 ^ 53)) * (1 - 1 / 2 ^ 53) =
        n * c * ((1 - 1 / 2 ^ 53) * (1 - 1 / 2 ^ 53)) := by ring
    have k : (n : ℚ) * c * (1 - 1 / 2 ^ 50) ≤ n * c * ((1 - 1 / 2 ^ 53) * (1 - 1 / 2 ^ 53)) :=
      mul_le_mul_of_nonneg_left (by norm_num) hnc
    linarith
  · have r1 : (n : ℚ) * fl64 c * (1 + 1 / 2 ^ 53) ≤
        n * (c * (1 + 1 / 2 ^ 53)) * (1 + 1 / 2 ^ 53) := mul_le_mul_of_nonneg_right q1 (by norm_num)
    have e : (n : ℚ) * (c * (1 + 1 / 2 ^ 53)) * (1 + 1 / 2 ^ 53) =
        n * c * ((1 + 1 / 2 ^ 53) * (1 + 1 / 2 ^ 53)) := by ring
    have k : (n : ℚ) * c * ((1 + 1 / 2 ^ 53) * (1 + 1 / 2 ^ 53)) ≤ n * c * (1 + 1 / 2 ^ 50) :=
      mul_le_mul_of_nonneg_left (by norm_num) hnc
    linarith

/-- The value of `fl64` at a positive number, from its binade and its rounded significand. -/
theorem fl64_eq (x : ℚ) (e N : ℤ) (h1 : (2 : ℚ) ^ (e + 52) ≤ x) (h2 : x < (2 : ℚ) ^ (e + 53))
    (h3 : |x / 2 ^ e - N| < 1 / 2) : fl64 x = N * 2 ^ e := by
  have hpos : (0 : ℚ) < x := lt_of_lt_of_le (zpow_pos (by norm_num) _) h1
  have hlog : Int.log 2 |x| = e + 52 := by
    rw [abs_of_pos hpos]
    apply le_antisymm
    · have := (Int.lt_zpow_iff_log_lt (b := 2) (by norm_num) hpos (x := e + 53)).mp
        (by exact_mod_cast h2)
      omega
    · exact (Int.zpow_le_iff_le_log (b := 2) (by norm_num) hpos).mp (by exact_mod_cast h1)
  unfold fl64
  rw [if_neg hpos.ne', hlog]
  have : e + 52 - 52 = e := by ring
  rw [this, roundHalfEven_eq _ N h3]

theorem fl64_half : fl64 (1 / 2) = 1 / 2 := by
  rw [fl64_eq (1 / 2) (-53) 4503599627370496 (by norm_num) (by norm_num)
    (by rw [abs_lt]; constructor <;> norm_num)]
  norm_num

theorem isRandomDraw_half : isRandomDraw (1 / 2) :=
  ⟨by norm_num, by norm_num, fl64_half⟩

/-- The largest double below 1 is `1 - 2 ^ (-53)`. -/
theorem isRandomDraw_le (rand : ℚ) (h : isRandomDraw rand) : rand ≤ 1 - 1 / 2 ^ 53 := by
  obtain ⟨h0, h1, h2⟩ := h
  rcases h0.eq_or_lt with h0 | hpos
  · rw [← h0]; norm_num
  · have hlt : Int.log 2 rand < 0 :=
      (Int.lt_zpow_iff_log_lt (b := 2) (by norm_num) hpos (x := 0)).mp (by simpa using h1)
    have hup : rand < (2 : ℚ) ^ (Int.log 2 rand + 1) := by
      exact_mod_cast Int.lt_zpow_succ_log_self (b := 2) (by norm_num) rand
    rcases lt_or_eq_of_le (Int.lt_iff_add_one_le.mp hlt) with hL | hL
    · have hle : (2 : ℚ) ^ (Int.log 2 rand + 1) ≤ (2 : ℚ) ^ (-1 : ℤ) :=
        zpow_le_zpow_right₀ (by norm_num) (by omega)
      have e2 : (2 : ℚ) ^ (-1 : ℤ) = 1 / 2 := by norm_num
      rw [e2] at hle
      have : (1 : ℚ) / 2 ≤ 1 - 1 / 2 ^ 53 := by norm_num
      linarith
    · have hL' : Int.log 2 |rand| = -1 := by rw [abs_of_pos hpos]; omega
      unfold fl64 at h2
      rw [if_neg hpos.ne', hL'] at h2
      have e1 : (2 : ℚ) ^ ((-1 : ℤ) - 52) = 1 / 2 ^ 53 := by norm_num
      rw [e1] at h2
      generalize roundHalfEven (rand / (1 / 2 ^ 53)) = N at h2
      have hN : ((N : ℤ) : ℚ) < ((2 ^ 53 : ℤ) : ℚ) := by
        push_cast
        have : (N : ℚ) * (1 / 2 ^ 53) < 1 := by rw [h2]; exact h1
        linarith
      have hN' : N ≤ 2 ^ 53 - 1 := by
        have := Int.cast_lt.mp hN
        omega
      have hN'' : (N : ℚ) ≤ 2 ^ 53 - 1 := by exact_mod_cast hN'
      rw [← h2]
      linarith

/-- A draw of `Math.random()` times a positive integer, rounded, stays below the integer. -/
theorem fl64_draw_mul_lt (rand : ℚ) (h : isRandomDraw rand) (n : ℚ) (hn : 0 < n) :
    0 ≤ fl64 (rand * n) ∧ fl64 (rand * n) < n := by
  have hr := isRandomDraw_le rand h
  have hx : 0 ≤ rand * n := mul_nonneg h.1 hn.le
  refine ⟨fl64_nonneg _ hx, ?_⟩
  have h1 := fl64_le _ hx
  have h2 : rand * n ≤ (1 - 1 / 2 ^ 53) * n := mul_le_mul_of_nonneg_right hr hn.le
  have h3 : rand * n * (1 + 1 / 2 ^ 53) ≤ (1 - 1 / 2 ^ 53) * n * (1 + 1 / 2 ^ 53) :=
    mul_le_mul_of_nonneg_right h2 (by norm_num)
  have h4 : (1 - 1 / 2 ^ 53) * n * (1 + 1 / 2 ^ 53) = n * ((1 - 1 / 2 ^ 53) * (1 + 1 / 2 ^ 53)) := by
    ring
  have h5 : n * ((1 - 1 / 2 ^ 53) * (1 + 1 / 2 ^ 53)) < n * 1 :=
    mul_lt_mul_of_pos_left (by norm_num) hn
  linarith

/-! ## Collision test (C1) -/

theorem isCollision_iff (A B : Rect) :
    isCollision A B = true ↔
      A.left < B.left + B.width ∧ A.left + A.width > B.left ∧
      A.top < B.top + B.height ∧ A.top + A.height > B.top := by
  simp [isCollision, and_assoc]

theorem intersectionArea_pos_iff (A B : Rect) (hAw : 0 < A.width) (hAh : 0 < A.height)
    (hBw : 0 < B.width) (hBh : 0 < B.height) :
    0 < intersectionArea A B ↔
      A.left < B.left + B.width ∧ A.left + A.width > B.left ∧
      A.top < B.top + B.height ∧ A.top + A.height > B.top := by
  unfold intersectionArea
  have hx : 0 < overlapX A B ↔ A.left < B.left + B.width ∧ A.left + A.width > B.left := by
    unfold overlapX
    rw [sub_pos, max_lt_iff, lt_min_iff, lt_min_iff]
    constructor
    · rintro ⟨⟨_, h1⟩, h2, _⟩
      exact ⟨h1, h2⟩
    · rintro ⟨h1, h2⟩
      exact ⟨⟨by linarith, h1⟩, h2, by linarith⟩
  have hy : 0 < overlapY A B ↔ A.top < B.top + B.height ∧ A.top + A.height > B.top := by
    unfold overlapY
    rw [sub_pos, max_lt_iff, lt_min_iff, lt_min_iff]
    constructor
    · rintro ⟨⟨_, h1⟩, h2, _⟩
      exact ⟨h1, h2⟩
    · rintro ⟨h1, h2⟩
      exact ⟨⟨by linarith, h1⟩, h2, by linarith⟩
  have key : 0 < max 0 (overlapX A B) * max 0 (overlapY A B) ↔
      0 < overlapX A B ∧ 0 < overlapY A B := by
    constructor
    · intro h
      have h1 : 0 ≤ max 0 (overlapX A B) := le_max_left _ _
      have h2 : 0 ≤ max 0 (overlapY A B) := le_max_left _ _
      have h3 : 0 < max 0 (overlapX A B) := by
        rcases h1.lt_or_eq with h1 | h1
        · exact h1
        · rw [← h1, zero_mul] at h; exact absurd h (lt_irrefl _)
      have h4 : 0 < max 0 (overlapY A B) := by
        rcases h2.lt_or_eq with h2 | h2
        · exact h2
        · rw [← h2, mul_zero] at h; exact absurd h (lt_irrefl _)
      rw [lt_max_iff] at h3 h4
      exact ⟨h3.resolve_left (lt_irrefl _), h4.resolve_left (lt_irrefl _)⟩
    · rintro ⟨h1, h2⟩
      exact mul_pos (lt_max_of_lt_right h1) (lt_max_of_lt_right h2)
  rw [key, hx, hy, and_assoc]

/-- C1: for rectangles of positive width and height, `isCollision A B` is true
exactly when the four strict inequalities hold, which is exactly when the
intersection of the two rectangles has positive area; two rectangles that merely
share an edge (on any of the four sides) do not collide. -/
theorem isCollision_overlap (A B : Rect) (hAw : 0 < A.width) (hAh : 0 < A.height)
    (hBw : 0 < B.width) (hBh : 0 < B.height) :
    (isCollision A B = true ↔
      A.left < B.left + B.width ∧ A.left + A.width > B.left ∧
      A.top < B.top + B.height ∧ A.top + A.height > B.top) ∧
    (isCollision A B = true ↔ 0 < intersectionArea A B) ∧
    (A.left + A.width = B.left → isCollision A B = false) ∧
    (B.left + B.width = A.left → isCollision A B = false) ∧
    (A.top + A.height = B.top → isCollision A B = false) ∧
    (B.top + B.height = A.top → isCollision A B = false) := by
  refine ⟨isCollision_iff A B, ?_, ?_, ?_, ?_, ?_⟩
  · rw [isCollision_iff, intersectionArea_pos_iff A B hAw hAh hBw hBh]
  all_goals
    intro h
    rw [Bool.eq_false_iff, ne_eq, isCollision_iff]
    rintro ⟨h1, h2, h3, h4⟩
    linarith

/-- Witness for C1: a 10 by 10 square at the origin and the same square moved
right by 10 (they share an edge), an instance where all hypotheses hold. -/
theorem isCollision_overlap_witness :
    isCollision ⟨0, 0, 10, 10⟩ ⟨5, 5, 10, 10⟩ = true ∧
    isCollision ⟨0, 0, 10, 10⟩ ⟨10, 0, 10, 10⟩ = false := by
  have h1 := isCollision_overlap ⟨0, 0, 10, 10⟩ ⟨5, 5, 10, 10⟩
    (by norm_num) (by norm_num) (by norm_num) (by norm_num)
  have h2 := isCollision_overlap ⟨0, 0, 10, 10⟩ ⟨10, 0, 10, 10⟩
    (by norm_num) (by norm_num) (by norm_num) (by norm_num)
  exact ⟨h1.1.mpr (by norm_num), h2.2.2.1 (by norm_num)⟩

/-! ## One gravity tick (C2, C5) -/

/-- C2: in a running game whose bird is not taller than the viewport, one call
of `applyGravity` leaves `birdY` in `[0, vh - offsetHeight]`, and the phase
afterwards is `End` exactly when `birdY` is the lower bound `vh - offsetHeight`. -/
theorem applyGravity_clamped (env : Env) (s : State) (hPlay : s.gameState = .Play)
    (hh : env.offsetHeight ≤ env.vh) :
    0 ≤ (applyGravity env s).birdY ∧
    (applyGravity env s).birdY ≤ (env.vh : ℚ) - env.offsetHeight ∧
    ((applyGravity env s).gameState = .End ↔
      (applyGravity env s).birdY = (env.vh : ℚ) - env.offsetHeight) := by
  have hh' : (env.offsetHeight : ℚ) ≤ env.vh := by exact_mod_cast hh
  unfold applyGravity
  rw [if_neg (by simp [hPlay])]
  simp only []
  split_ifs with h1 h2 h3
  · simp only [gameOver_birdY, gameOver_gameState]
    exact ⟨by linarith, le_refl _, by simp⟩
  · simp only [requestAnimationFrame, hPlay]
    refine ⟨le_refl _, by linarith, ?_⟩
    constructor
    · intro h; cases h
    · intro h; exfalso; linarith
  · simp only [gameOver_birdY, gameOver_gameState]
    exact ⟨by linarith, le_refl _, by simp⟩
  · simp only [requestAnimationFrame, hPlay]
    refine ⟨by linarith, by linarith, ?_⟩
    constructor
    · intro h; cases h
    · intro h; exfalso; linarith

/-- Witness for C2: the bird of `fixtureEnv` (40 high in a viewport of 600)
after one tick from the ceiling. -/
theorem applyGravity_clamped_witness :
    0 ≤ (applyGravity fixtureEnv flapAtCeiling).birdY ∧
    (applyGravity fixtureEnv flapAtCeiling).birdY ≤
      (fixtureEnv.vh : ℚ) - fixtureEnv.offsetHeight ∧
    ((applyGravity fixtureEnv flapAtCeiling).gameState = .End ↔
      (applyGravity fixtureEnv flapAtCeiling).birdY =
        (fixtureEnv.vh : ℚ) - fixtureEnv.offsetHeight) :=
  applyGravity_clamped fixtureEnv flapAtCeiling rfl (by decide)

/-- Counterexample to C5: with the bird at the ceiling right after a flap
(`birdY = 0`, `birdDy = -5.5`) one tick of `applyGravity` sets the velocity to 0,
not to `-5.5 + 0.19`. -/
theorem applyGravity_velocity_counterexample :
    flapAtCeiling.gameState = .Play ∧
    (applyGravity fixtureEnv flapAtCeiling).birdDy = 0 ∧
    (applyGravity fixtureEnv flapAtCeiling).birdDy ≠ flapAtCeiling.birdDy + gravity := by
  have h : (applyGravity fixtureEnv flapAtCeiling).birdDy = 0 := by
    simp [applyGravity, flapAtCeiling, fixtureEnv, State.init, flapPower, gravity,
      requestAnimationFrame]
    norm_num
  refine ⟨rfl, h, ?_⟩
  rw [h]
  norm_num [flapAtCeiling, flapPower, gravity]

/-- C5 (amended): in a running game one call of `applyGravity` adds exactly
`gravity` to `birdDy` whenever the new position `birdY + birdDy + gravity` is
above 0 (whether or not the floor is reached); when the new position is at or
below 0 the velocity is reset to 0 instead. -/
theorem applyGravity_velocity (env : Env) (s : State) (hPlay : s.gameState = .Play) :
    (0 < s.birdY + (s.birdDy + gravity) →
      (applyGravity env s).birdDy = s.birdDy + gravity ∧
      (applyGravity env s).birdDy > s.birdDy) ∧
    (s.birdY + (s.birdDy + gravity) ≤ 0 → (applyGravity env s).birdDy = 0) ∧
    gravity = 19 / 100 := by
  refine ⟨?_, ?_, rfl⟩
  · intro h
    have h' : ¬ s.birdY + (s.birdDy + gravity) ≤ 0 := not_le.mpr h
    have hg : (0 : ℚ) < gravity := by norm_num [gravity]
    unfold applyGravity
    rw [if_neg (by simp [hPlay])]
    simp only [h', if_false]
    split_ifs
    · simp only [gameOver_birdDy]
      exact ⟨trivial, by linarith⟩
    · simp only [requestAnimationFrame]
      exact ⟨trivial, by linarith⟩
  · intro h
    unfold applyGravity
    rw [if_neg (by simp [hPlay])]
    simp only [h, if_true]
    split_ifs
    · simp only [gameOver_birdDy]
    · simp only [requestAnimationFrame]

/-- Witness for C5 (amended): a bird in mid-air falling at 1 pixel per frame. -/
theorem applyGravity_velocity_witness :
    (applyGravity fixtureEnv
      { State.init with gameState := .Play, birdY := 100, birdDy := 1 }).birdDy = 119 / 100 := by
  have h := (applyGravity_velocity fixtureEnv
    { State.init with gameState := .Play, birdY := 100, birdDy := 1 } rfl).1
    (by norm_num [gravity])
  rw [h.1]
  norm_num [gravity]

/-! ## Input dispatch (C4) -/

/-- C4: `handleInput` is `startGame` when the phase is `Start` or `End` and
`flap` when it is `Play` (these are all the phases). `startGame` yields phase
`Play`, score 0, velocity 0 and position `round(0.45 * vh)` whatever the state
before; `flap` sets the velocity to `flapPower = -5.5` and leaves phase, position
and score as they were. -/
theorem handleInput_dispatch (env : Env) (s : State) :
    (s.gameState = .Start ∨ s.gameState = .End ∨ s.gameState = .Play) ∧
    (s.gameState = .Start ∨ s.gameState = .End →
      handleInput env s = startGame env s ∧
      (handleInput env s).gameState = .Play ∧
      (handleInput env s).score = 0 ∧
      (handleInput env s).birdDy = 0 ∧
      (handleInput env s).birdY = mathRound ((env.vh : ℚ) * (45 / 100))) ∧
    (s.gameState = .Play →
      handleInput env s = flap s ∧
      (handleInput env s).birdDy = flapPower ∧
      flapPower = -11 / 2 ∧ flapPower < 0 ∧
      (handleInput env s).gameState = .Play ∧
      (handleInput env s).birdY = s.birdY ∧
      (handleInput env s).score = s.score) := by
  refine ⟨?_, ?_, ?_⟩
  · cases s.gameState <;> simp
  · intro h
    have h1 : handleInput env s = startGame env s := by
      unfold handleInput
      rw [if_pos h]
    rw [h1, startGame_eq]
    exact ⟨rfl, rfl, rfl, rfl, rfl⟩
  · intro h
    have h1 : handleInput env s = flap s := by
      unfold handleInput
      rw [if_neg (by simp [h]), if_pos h]
    rw [h1]
    refine ⟨rfl, rfl, rfl, by norm_num [flapPower], h, rfl, rfl⟩

/-! ## Free fall (C6) -/

theorem mathRound_le (x : ℚ) : (mathRound x : ℚ) ≤ x + 1 / 2 :=
  Int.floor_le _

theorem mathRound_gt (x : ℚ) : x - 1 / 2 < (mathRound x : ℚ) := by
  have h := Int.lt_floor_add_one (x + 1 / 2)
  unfold mathRound
  linarith

theorem mathRound_nonneg {x : ℚ} (hx : 0 ≤ x) : 0 ≤ mathRound x := by
  unfold mathRound
  exact Int.floor_nonneg.mpr (by linarith)

theorem applyGravity_of_not_play (env : Env) (s : State) (h : s.gameState ≠ .Play) :
    applyGravity env s = s := by
  unfold applyGravity
  rw [if_pos h]

theorem applyGravity_score (env : Env) (s : State) : (applyGravity env s).score = s.score := by
  unfold applyGravity
  simp only []
  split_ifs <;> simp [requestAnimationFrame]

theorem applyGravity_fall (env : Env) (s : State) (hPlay : s.gameState = .Play)
    (hpos : 0 < s.birdY + (s.birdDy + gravity))
    (hair : s.birdY + (s.birdDy + gravity) + env.offsetHeight < env.vh) :
    (applyGravity env s).gameState = .Play ∧
    (applyGravity env s).birdDy = s.birdDy + gravity ∧
    (applyGravity env s).birdY = s.birdY + (s.birdDy + gravity) := by
  unfold applyGravity
  rw [if_neg (by simp [hPlay])]
  simp only [not_le.mpr hpos, if_false]
  rw [if_neg (by simpa using hair)]
  simp [requestAnimationFrame, hPlay]

theorem applyGravity_land (env : Env) (s : State) (hPlay : s.gameState = .Play)
    (hpos : 0 < s.birdY + (s.birdDy + gravity))
    (hfloor : (env.vh : ℚ) ≤ s.birdY + (s.birdDy + gravity) + env.offsetHeight) :
    (applyGravity env s).gameState = .End := by
  unfold applyGravity
  rw [if_neg (by simp [hPlay])]
  simp only [not_le.mpr hpos, if_false]
  rw [if_pos (by simpa using hfloor)]
  simp

/-- The distance fallen after `n` ticks from rest: `gravity * (1 + 2 + ... + n)`. -/
theorem fall_succ (n : ℕ) :
    gravity * (n + 1 : ℕ) * ((n + 1 : ℕ) + 1) / 2 =
      gravity * n * (n + 1) / 2 + gravity * (n + 1) := by
  push_cast
  ring

theorem gravityTicks_succ (env : Env) (n : ℕ) (s : State) :
    gravityTicks env (n + 1) s = applyGravity env (gravityTicks env n s) := by
  unfold gravityTicks
  rw [Function.iterate_succ_apply']

theorem gravityTicks_score (env : Env) (n : ℕ) (s : State) :
    (gravityTicks env n s).score = s.score := by
  induction n with
  | zero => rfl
  | succ n ih => rw [gravityTicks_succ, applyGravity_score, ih]

/-- While the closed-form position stays above the floor, the game is still
running after `n` ticks and the bird follows the closed form. -/
theorem gravityTicks_play (env : Env) (s : State) (hPlay : s.gameState = .Play)
    (hy : 0 ≤ s.birdY) (hdy : s.birdDy = 0) (n : ℕ)
    (hair : s.birdY + gravity * n * (n + 1) / 2 + env.offsetHeight < env.vh) :
    (gravityTicks env n s).gameState = .Play ∧
    (gravityTicks env n s).birdDy = gravity * n ∧
    (gravityTicks env n s).birdY = s.birdY + gravity * n * (n + 1) / 2 := by
  have hg : (0 : ℚ) < gravity := by norm_num [gravity]
  induction n with
  | zero => simp [gravityTicks, hPlay, hdy]
  | succ n ih =>
    have hn : (0 : ℚ) ≤ n := Nat.cast_nonneg n
    rw [fall_succ] at hair
    have hstep : 0 < gravity * ((n : ℚ) + 1) := by positivity
    obtain ⟨h1, h2, h3⟩ := ih (by linarith)
    have hfall : 0 ≤ gravity * n * (n + 1) / 2 := by positivity
    have h4 := applyGravity_fall env (gravityTicks env n s) h1
      (by rw [h2, h3]; linarith) (by rw [h2, h3]; linarith)
    rw [gravityTicks_succ, fall_succ]
    refine ⟨h4.1, ?_, ?_⟩
    · rw [h4.2.1, h2]; push_cast; ring
    · rw [h4.2.2, h2, h3]; ring

/-- After `n` ticks from rest the game is over, or it is running, the bird
follows the closed form and (for `n ≥ 1`) it is above the floor. -/
theorem gravityTicks_inv (env : Env) (s : State) (hPlay : s.gameState = .Play)
    (hy : 0 ≤ s.birdY) (hdy : s.birdDy = 0) (n : ℕ) :
    (gravityTicks env n s).gameState = .End ∨
    ((gravityTicks env n s).gameState = .Play ∧
      (gravityTicks env n s).birdDy = gravity * n ∧
      (gravityTicks env n s).birdY = s.birdY + gravity * n * (n + 1) / 2 ∧
      (1 ≤ n → s.birdY + gravity * n * (n + 1) / 2 + env.offsetHeight < env.vh)) := by
  have hg : (0 : ℚ) < gravity := by norm_num [gravity]
  induction n with
  | zero =>
    right
    simp [gravityTicks, hPlay, hdy]
  | succ n ih =>
    have hn : (0 : ℚ) ≤ n := Nat.cast_nonneg n
    have hstep : 0 < gravity * ((n : ℚ) + 1) := by positivity
    have hfall : 0 ≤ gravity * n * (n + 1) / 2 := by positivity
    rw [gravityTicks_succ]
    rcases ih with hEnd | ⟨h1, h2, h3, _⟩
    · left
      rw [applyGravity_of_not_play env _ (by simp [hEnd])]
      exact hEnd
    · have hpos : 0 < (gravityTicks env n s).birdY + ((gravityTicks env n s).birdDy + gravity) := by
        rw [h2, h3]; linarith
      by_cases hfloor : (env.vh : ℚ) ≤
          (gravityTicks env n s).birdY + ((gravityTicks env n s).birdDy + gravity) + env.offsetHeight
      · left
        exact applyGravity_land env _ h1 hpos hfloor
      · right
        have h4 := applyGravity_fall env _ h1 hpos (not_le.mp hfloor)
        rw [fall_succ]
        refine ⟨h4.1, ?_, ?_, ?_⟩
        · rw [h4.2.1, h2]; push_cast; ring
        · rw [h4.2.2, h2, h3]; ring
        · intro _
          rw [h2, h3] at hfloor
          linarith [not_le.mp hfloor]

theorem startGame_birdY_nonneg (env : Env) (s : State) : 0 ≤ (startGame env s).birdY := by
  rw [startGame_eq]
  have h : 0 ≤ mathRound ((env.vh : ℚ) * (45 / 100)) :=
    mathRound_nonneg (by positivity)
  show (0 : ℚ) ≤ ((mathRound ((env.vh : ℚ) * (45 / 100)) : ℤ) : ℚ)
  exact_mod_cast h

/-- Counterexample to C6: in a viewport 10000 pixels high, 200 ticks after
`startGame` the game is still running (the bird has fallen 3819 pixels from
4500 and the floor is at 9960). -/
theorem free_fall_counterexample :
    (gravityTicks tallEnv 200 (startGame tallEnv State.init)).gameState = .Play ∧
    (gravityTicks tallEnv 200 (startGame tallEnv State.init)).gameState ≠ .End := by
  have hy : (startGame tallEnv State.init).birdY ≤ 4500 + 1 / 2 := by
    rw [startGame_eq]
    have h := mathRound_le ((tallEnv.vh : ℚ) * (45 / 100))
    simp only [tallEnv] at h ⊢
    norm_num at h ⊢
    linarith
  have h := gravityTicks_play tallEnv (startGame tallEnv State.init)
    (by rw [startGame_eq]) (startGame_birdY_nonneg _ _) (by rw [startGame_eq]) 200
    (by
      have h1 : ((tallEnv.offsetHeight : ℕ) : ℚ) = 40 := by norm_num [tallEnv]
      have h2 : ((tallEnv.vh : ℕ) : ℚ) = 10000 := by norm_num [tallEnv]
      rw [h1, h2]
      norm_num [gravity]
      linarith)
  refine ⟨h.1, ?_⟩
  rw [h.1]
  decide

/-- C6 (amended): `startGame` followed by 200 calls of `applyGravity` ends with
score 0 in every viewport; the phase is then `End` exactly when the drop from
the start position `round(0.45 * vh)` to the floor `vh - offsetHeight` is at most
3819 pixels (`0.19 * (1 + ... + 200)`), and `Play` otherwise. In particular the
phase is `End` for every viewport at most 6942 pixels high. -/
theorem free_fall_200 (env : Env) (s : State) :
    ((gravityTicks env 200 (startGame env s)).gameState = .End ↔
      (env.vh : ℚ) - env.offsetHeight - mathRound ((env.vh : ℚ) * (45 / 100)) ≤ 3819) ∧
    ((gravityTicks env 200 (startGame env s)).gameState = .Play ↔
      3819 < (env.vh : ℚ) - env.offsetHeight - mathRound ((env.vh : ℚ) * (45 / 100))) ∧
    (env.vh ≤ 6942 → (gravityTicks env 200 (startGame env s)).gameState = .End) ∧
    (gravityTicks env 200 (startGame env s)).score = 0 := by
  have hP : (startGame env s).gameState = .Play := by rw [startGame_eq]
  have hD : (startGame env s).birdDy = 0 := by rw [startGame_eq]
  have hY : (startGame env s).birdY = mathRound ((env.vh : ℚ) * (45 / 100)) := by
    rw [startGame_eq]
  have hN := startGame_birdY_nonneg env s
  have hfall : gravity * (200 : ℕ) * ((200 : ℕ) + 1) / 2 = 3819 := by norm_num [gravity]
  have hinv := gravityTicks_inv env (startGame env s) hP hN hD 200
  have hplay := gravityTicks_play env (startGame env s) hP hN hD 200
  rw [hfall, hY] at hinv hplay
  have hEnd : (gravityTicks env 200 (startGame env s)).gameState = .End ↔
      (env.vh : ℚ) - env.offsetHeight - mathRound ((env.vh : ℚ) * (45 / 100)) ≤ 3819 := by
    constructor
    · intro hE
      by_contra hc
      have := (hplay (by linarith [not_le.mp hc])).1
      rw [hE] at this
      cases this
    · intro hle
      rcases hinv with hE | ⟨_, _, _, h4⟩
      · exact hE
      · exfalso
        have := h4 (by norm_num)
        linarith
  have hPlay : (gravityTicks env 200 (startGame env s)).gameState = .Play ↔
      3819 < (env.vh : ℚ) - env.offsetHeight - mathRound ((env.vh : ℚ) * (45 / 100)) := by
    constructor
    · intro hE
      by_contra hc
      have := hEnd.mpr (not_lt.mp hc)
      rw [hE] at this
      cases this
    · intro hlt
      exact (hplay (by linarith)).1
  refine ⟨hEnd, hPlay, ?_, ?_⟩
  · intro hvh
    apply hEnd.mpr
    have h1 := mathRound_gt ((env.vh : ℚ) * (45 / 100))
    have h2 : (env.vh : ℚ) ≤ 6942 := by exact_mod_cast hvh
    have h3 : (0 : ℚ) ≤ env.offsetHeight := Nat.cast_nonneg _
    linarith
  · rw [gravityTicks_score, startGame_eq]

/-! ## Spawn timer (C8) -/

theorem createPipes_play (env : Env) (rand : ℚ) (s : State) (hPlay : s.gameState = .Play) :
    (createPipes env rand s).gameState = .Play ∧
    (createPipes env rand s).pipeTimer = (if s.pipeTimer + 1 > 120 then 0 else s.pipeTimer + 1) ∧
    (createPipes env rand s).pipes =
      (if s.pipeTimer + 1 > 120 then
        s.pipes ++ [topPipeOf env rand, bottomPipeOf env rand]
      else s.pipes) := by
  unfold createPipes
  rw [if_neg (by simp [hPlay])]
  simp only [requestAnimationFrame]
  split_ifs <;> simp [hPlay]

theorem createPipesTicks_count (env : Env) (rands : ℕ → ℚ) (s : State)
    (hPlay : s.gameState = .Play) (ht : s.pipeTimer ≤ 120) (k : ℕ) :
    (createPipesTicks env rands k s).gameState = .Play ∧
    (createPipesTicks env rands k s).pipeTimer = (s.pipeTimer + k) % 121 ∧
    (createPipesTicks env rands k s).pipes.length =
      s.pipes.length + 2 * ((s.pipeTimer + k) / 121) := by
  induction k with
  | zero =>
    refine ⟨hPlay, ?_, ?_⟩
    · show s.pipeTimer = (s.pipeTimer + 0) % 121
      omega
    · show s.pipes.length = s.pipes.length + 2 * ((s.pipeTimer + 0) / 121)
      omega
  | succ k ih =>
    obtain ⟨h1, h2, h3⟩ := ih
    obtain ⟨g1, g2, g3⟩ := createPipes_play env (rands k) (createPipesTicks env rands k s) h1
    show (createPipes env (rands k) (createPipesTicks env rands k s)).gameState = .Play ∧
      (createPipes env (rands k) (createPipesTicks env rands k s)).pipeTimer =
        (s.pipeTimer + (k + 1)) % 121 ∧
      (createPipes env (rands k) (createPipesTicks env rands k s)).pipes.length =
        s.pipes.length + 2 * ((s.pipeTimer + (k + 1)) / 121)
    rw [g2, g3, h2]
    refine ⟨g1, ?_, ?_⟩
    · split_ifs <;> omega
    · split_ifs with hc
      · rw [List.length_append, h3]
        simp only [List.length_cons, List.length_nil]
        omega
      · rw [h3]
        omega

/-- Counterexample to C8: from a state whose next call of `createPipes` spawns,
the first call creates a pair, the 120 calls after it create nothing, and the
second pair is created by the 121st call after the first spawn. -/
theorem createPipes_period_counterexample :
    (createPipesTicks fixtureEnv (fun _ => 1 / 2) 1 aboutToSpawn).pipes.length = 2 ∧
    (createPipesTicks fixtureEnv (fun _ => 1 / 2) 121 aboutToSpawn).pipes.length = 2 ∧
    (createPipesTicks fixtureEnv (fun _ => 1 / 2) 122 aboutToSpawn).pipes.length = 4 := by
  have h := fun k =>
    (createPipesTicks_count fixtureEnv (fun _ => 1 / 2) aboutToSpawn rfl (by decide) k).2.2
  exact ⟨h 1, h 121, h 122⟩

/-- C8 (amended): while the phase is `Play`, `createPipes` creates exactly one
obstacle pair every 121 calls: with the timer at `t ≤ 120`, call number `k`
(counted from 0) appends exactly the pair `topPipe, bottomPipe` when
`(t + k) % 121 = 120` and leaves the obstacle set alone otherwise, so any two
consecutive spawns are exactly 121 calls apart. -/
theorem createPipes_period (env : Env) (rands : ℕ → ℚ) (s : State)
    (hPlay : s.gameState = .Play) (ht : s.pipeTimer ≤ 120) (k : ℕ) :
    (createPipesTicks env rands k s).gameState = .Play ∧
    (createPipesTicks env rands k s).pipeTimer = (s.pipeTimer + k) % 121 ∧
    (createPipesTicks env rands k s).pipes.length =
      s.pipes.length + 2 * ((s.pipeTimer + k) / 121) ∧
    ((s.pipeTimer + k) % 121 = 120 →
      (createPipesTicks env rands (k + 1) s).pipes =
        (createPipesTicks env rands k s).pipes ++
          [topPipeOf env (rands k), bottomPipeOf env (rands k)]) ∧
    ((s.pipeTimer + k) % 121 ≠ 120 →
      (createPipesTicks env rands (k + 1) s).pipes = (createPipesTicks env rands k s).pipes) := by
  obtain ⟨h1, h2, h3⟩ := createPipesTicks_count env rands s hPlay ht k
  obtain ⟨_, _, g3⟩ := createPipes_play env (rands k) (createPipesTicks env rands k s) h1
  refine ⟨h1, h2, h3, ?_, ?_⟩
  · intro hk
    show (createPipes env (rands k) (createPipesTicks env rands k s)).pipes = _
    rw [g3, h2, if_pos (by omega)]
  · intro hk
    show (createPipes env (rands k) (createPipesTicks env rands k s)).pipes = _
    rw [g3, h2, if_neg (by omega)]

/-- Witness for C8 (amended): from a fresh game (timer 0) the call number 120,
which is the 121st call, is the first one that spawns. -/
theorem createPipes_period_witness :
    (createPipesTicks fixtureEnv (fun _ => 1 / 2) 120
      { State.init with gameState := .Play }).pipes.length = 0 ∧
    (createPipesTicks fixtureEnv (fun _ => 1 / 2) 121
      { State.init with gameState := .Play }).pipes.length = 2 :=
  ⟨(createPipes_period fixtureEnv (fun _ => 1 / 2)
      { State.init with gameState := .Play } rfl (by decide) 120).2.2.1,
   (createPipes_period fixtureEnv (fun _ => 1 / 2)
      { State.init with gameState := .Play } rfl (by decide) 121).2.2.1⟩

/-! ## Gap placement (C9) -/

theorem gapTop_bounds (vh : ℕ) (rand : ℚ) (hvh : 0 < vh) (hr : isRandomDraw rand) :
    gapTopMinOf vh ≤ gapTopOf vh rand ∧ gapTopOf vh rand + pipeGapOf vh ≤ vh := by
  have hv : (1 : ℚ) ≤ vh := by exact_mod_cast hvh
  -- the rounded products
  obtain ⟨pG0, pG1, pG2⟩ := fl64_mul_bounds vh (35 / 100) (by norm_num)
  obtain ⟨pm0, pm1, pm2⟩ := fl64_mul_bounds vh (12 / 100) (by norm_num)
  obtain ⟨pa0, pa1, pa2⟩ := fl64_mul_bounds vh (60 / 100) (by norm_num)
  -- the three rounded quantities, as integers
  obtain ⟨G, hG⟩ : ∃ G : ℤ, G = mathRound (fl64 ((vh : ℚ) * fl64 (35 / 100))) := ⟨_, rfl⟩
  obtain ⟨m, hm⟩ : ∃ m : ℤ, m = mathRound (fl64 ((vh : ℚ) * fl64 (12 / 100))) := ⟨_, rfl⟩
  obtain ⟨M, hM⟩ : ∃ M : ℤ,
      M = mathRound (fl64 (fl64 ((vh : ℚ) * fl64 (60 / 100)) - (G : ℚ))) := ⟨_, rfl⟩
  have hGle : (G : ℚ) ≤ fl64 ((vh : ℚ) * fl64 (35 / 100)) + 1 / 2 := by
    rw [hG]; exact mathRound_le _
  have hG0 : 0 ≤ G := by rw [hG]; exact mathRound_nonneg pG0
  have hG0q : (0 : ℚ) ≤ G := by exact_mod_cast hG0
  have hmle : (m : ℚ) ≤ fl64 ((vh : ℚ) * fl64 (12 / 100)) + 1 / 2 := by
    rw [hm]; exact mathRound_le _
  have hMle : (M : ℚ) ≤ fl64 (fl64 ((vh : ℚ) * fl64 (60 / 100)) - (G : ℚ)) + 1 / 2 := by
    rw [hM]; exact mathRound_le _
  -- the rounded difference `vh * 0.60 - pipeGap`
  have hdiff : fl64 (fl64 ((vh : ℚ) * fl64 (60 / 100)) - (G : ℚ)) ≤
      fl64 ((vh : ℚ) * fl64 (60 / 100)) - G +
        (fl64 ((vh : ℚ) * fl64 (60 / 100)) + G) / 2 ^ 53 := by
    have h := fl64_abs_sub_le (fl64 ((vh : ℚ) * fl64 (60 / 100)) - (G : ℚ))
    have habs : |fl64 ((vh : ℚ) * fl64 (60 / 100)) - (G : ℚ)| ≤
        fl64 ((vh : ℚ) * fl64 (60 / 100)) + G := by
      rw [abs_le]; constructor <;> linarith
    have h2 : |fl64 ((vh : ℚ) * fl64 (60 / 100)) - (G : ℚ)| / 2 ^ 53 ≤
        (fl64 ((vh : ℚ) * fl64 (60 / 100)) + G) / 2 ^ 53 :=
      div_le_div_of_nonneg_right habs (by positivity)
    rw [abs_le] at h
    linarith [h.2]
  -- the size of the band, as an integer
  obtain ⟨K, hK⟩ : ∃ K : ℤ, K = max 1 (M - m) := ⟨_, rfl⟩
  have hK1 : 1 ≤ K := by rw [hK]; exact le_max_left _ _
  have hKq : max 1 ((M : ℚ) - (m : ℚ)) = (K : ℚ) := by rw [hK]; push_cast; rfl
  have hK1q : (1 : ℚ) ≤ K := by exact_mod_cast hK1
  -- the random offset
  obtain ⟨hd0, hd1⟩ := fl64_draw_mul_lt rand hr ((K : ℚ) + 1) (by linarith)
  obtain ⟨f, hf⟩ : ∃ f : ℤ, f = mathFloor (fl64 (rand * ((K : ℚ) + 1))) := ⟨_, rfl⟩
  have hf0 : 0 ≤ f := by
    rw [hf]
    exact Int.floor_nonneg.mpr hd0
  have hfK : f ≤ K := by
    have h1 : f < K + 1 := by
      rw [hf]
      apply Int.floor_lt.mpr
      push_cast
      exact hd1
    omega
  have hgap : gapTopOf vh rand = (f : ℚ) + (m : ℚ) := by
    unfold gapTopOf gapTopMaxOf gapTopMinOf pipeGapOf
    rw [← hG, ← hM, ← hm, hKq, ← hf]
  have hmin : gapTopMinOf vh = (m : ℚ) := by unfold gapTopMinOf; rw [hm]
  have hgp : pipeGapOf vh = (G : ℚ) := by unfold pipeGapOf; rw [hG]
  rw [hgap, hmin, hgp]
  have hf0q : (0 : ℚ) ≤ f := by exact_mod_cast hf0
  refine ⟨by linarith, ?_⟩
  -- both ends of the band fit: M + G ≤ vh and 1 + m + G ≤ vh
  have hMG : M + G ≤ vh := by
    have h1 : ((M + G : ℤ) : ℚ) < ((vh + 1 : ℤ) : ℚ) := by push_cast; linarith
    have h2 : M + G < vh + 1 := Int.cast_lt.mp h1
    omega
  have hmG : 1 + m + G ≤ vh := by
    rcases Nat.lt_or_ge vh 2 with h1 | h2
    · have hv1 : vh = 1 := by omega
      subst hv1
      have hm0 : m < 1 := by
        have : ((m : ℤ) : ℚ) < ((1 : ℤ) : ℚ) := by
          push_cast; push_cast at hmle pm2; linarith
        exact Int.cast_lt.mp this
      have hG1 : G < 1 := by
        have : ((G : ℤ) : ℚ) < ((1 : ℤ) : ℚ) := by
          push_cast; push_cast at hGle pG2; linarith
        exact Int.cast_lt.mp this
      push_cast
      omega
    · have hv2 : (2 : ℚ) ≤ vh := by exact_mod_cast h2
      have h3 : ((m + G : ℤ) : ℚ) < ((vh : ℤ) : ℚ) := by push_cast; linarith
      have h4 : m + G < vh := Int.cast_lt.mp h3
      omega
  have hfin : f + m + G ≤ vh := by
    rcases le_max_iff.mp (le_of_eq hK) with h | h <;> omega
  have : ((f + m + G : ℤ) : ℚ) ≤ ((vh : ℤ) : ℚ) := Int.cast_le.mpr hfin
  push_cast at this
  linarith

/-- The double product `690 * 0.35` is `241.49999999999997`, so `Math.round`
gives 241 (exact arithmetic would give 241.5 and 242). -/
theorem pipeGapOf_690 : pipeGapOf 690 = 241 := by
  have c : fl64 (35 / 100) = 3152519739159347 / 2 ^ 53 := by
    rw [fl64_eq (35 / 100) (-54) 6305039478318694 (by norm_num) (by norm_num)
      (by rw [abs_lt]; constructor <;> norm_num)]
    norm_num
  have p : fl64 (((690 : ℕ) : ℚ) * fl64 (35 / 100)) = 8497025859452927 / 2 ^ 45 := by
    rw [c, fl64_eq _ (-45) 8497025859452927 (by norm_num) (by norm_num)
      (by rw [abs_lt]; constructor <;> norm_num)]
    norm_num
  unfold pipeGapOf mathRound
  rw [p, Int.floor_eq_iff.mpr
    (⟨by norm_num, by norm_num⟩ : ((241 : ℤ) : ℚ) ≤ _ ∧ _ < ((241 : ℤ) : ℚ) + 1)]
  norm_num

/-- C9: for a viewport height `vh ≥ 1` and a draw `rand` of `Math.random()` (a
double in `[0, 1)`), the pair that a spawning call of `createPipes` appends is
`topPipe, bottomPipe` with `gapTopMin ≤ gapTop` and `gapTop + pipeGap ≤ vh`; the
bottom edge of the top barrier is at `gapTop`, the top edge of the bottom barrier
is at `gapTop + pipeGap`, so the opening between them is exactly `pipeGap`. The
quantities are the ones the code computes in doubles. -/
theorem createPipes_gap (env : Env) (rand : ℚ) (s : State)
    (hPlay : s.gameState = .Play) (hspawn : 120 ≤ s.pipeTimer)
    (hvh : 0 < env.vh) (hr : isRandomDraw rand) :
    (createPipes env rand s).pipes =
      s.pipes ++ [topPipeOf env rand, bottomPipeOf env rand] ∧
    gapTopOf env.vh rand =
      mathFloor (fl64 (rand * (max 1 (gapTopMaxOf env.vh - gapTopMinOf env.vh) + 1))) +
        gapTopMinOf env.vh ∧
    pipeGapOf env.vh = mathRound (fl64 ((env.vh : ℚ) * fl64 (35 / 100))) ∧
    gapTopMinOf env.vh = mathRound (fl64 ((env.vh : ℚ) * fl64 (12 / 100))) ∧
    gapTopMaxOf env.vh =
      mathRound (fl64 (fl64 ((env.vh : ℚ) * fl64 (60 / 100)) - pipeGapOf env.vh)) ∧
    gapTopMinOf env.vh ≤ gapTopOf env.vh rand ∧
    gapTopOf env.vh rand + pipeGapOf env.vh ≤ env.vh ∧
    (topPipeOf env rand).top + (topPipeOf env rand).height = gapTopOf env.vh rand ∧
    (bottomPipeOf env rand).top = gapTopOf env.vh rand + pipeGapOf env.vh ∧
    (bottomPipeOf env rand).top - ((topPipeOf env rand).top + (topPipeOf env rand).height) =
      pipeGapOf env.vh := by
  obtain ⟨h1, h2⟩ := gapTop_bounds env.vh rand hvh hr
  refine ⟨?_, rfl, rfl, rfl, rfl, h1, h2, ?_, rfl, ?_⟩
  · rw [(createPipes_play env rand s hPlay).2.2, if_pos (by omega)]
  · simp only [topPipeOf]; ring
  · simp only [topPipeOf, bottomPipeOf]; ring

/-- Witness for C9: the spawn in a viewport 690 high (where `pipeGap` is 241)
with the draw 1/2. -/
theorem createPipes_gap_witness :
    gapTopMinOf tieEnv.vh ≤ gapTopOf tieEnv.vh (1 / 2) ∧
    gapTopOf tieEnv.vh (1 / 2) + pipeGapOf tieEnv.vh ≤ tieEnv.vh ∧
    pipeGapOf tieEnv.vh = 241 :=
  ⟨(createPipes_gap tieEnv (1 / 2) aboutToSpawn rfl (by decide) (by decide)
      isRandomDraw_half).2.2.2.2.2.1,
   (createPipes_gap tieEnv (1 / 2) aboutToSpawn rfl (by decide) (by decide)
      isRandomDraw_half).2.2.2.2.2.2.1,
   pipeGapOf_690⟩

/-! ## The `forEach` callback of `movePipes` -/

theorem not_isCollision_of_passed (b r : Rect) (h : r.right < b.left) :
    isCollision b r = false := by
  rw [Bool.eq_false_iff, ne_eq, isCollision_iff]
  rintro ⟨h1, _⟩
  unfold Rect.right at h
  linarith

theorem movePipesEach_removed (env : Env) (s : State) (p : Pipe)
    (h : p.getBoundingClientRect.right ≤ 0) : movePipesEach env s p = (s, none) := by
  unfold movePipesEach
  simp only []
  rw [if_pos h]

theorem movePipesEach_scores (env : Env) (s : State) (p : Pipe)
    (hvis : 0 < p.getBoundingClientRect.right) (hflag : p.increaseScore = some "1")
    (hpassed : p.getBoundingClientRect.right < (env.birdRect s).left) :
    movePipesEach env s p =
      ({ s with score := s.score + 1, scoreShown := s.score + 1 },
        some { p with left := p.left - moveSpeed, increaseScore := some "0" }) := by
  unfold movePipesEach
  simp only []
  rw [if_neg (not_le.mpr hvis), not_isCollision_of_passed _ _ hpassed]
  simp only [Bool.false_eq_true, if_false]
  rw [if_pos hflag, if_pos hpassed]
  rfl

theorem movePipesEach_not_passed (env : Env) (s : State) (p : Pipe)
    (hvis : 0 < p.getBoundingClientRect.right)
    (hnot : ¬ p.getBoundingClientRect.right < (env.birdRect s).left) :
    (movePipesEach env s p).1.score = s.score ∧
    (movePipesEach env s p).2 = some { p with left := p.left - moveSpeed } := by
  unfold movePipesEach
  simp only []
  rw [if_neg (not_le.mpr hvis), if_neg hnot]
  split_ifs <;> exact ⟨by simp, rfl⟩

theorem movePipesEach_unflagged (env : Env) (s : State) (p : Pipe)
    (hflag : p.increaseScore ≠ some "1") :
    (movePipesEach env s p).1.score = s.score ∧
    ∀ q, (movePipesEach env s p).2 = some q → q.increaseScore ≠ some "1" := by
  unfold movePipesEach
  simp only []
  rw [if_neg hflag]
  split_ifs
  · exact ⟨rfl, fun q hq => by cases hq⟩
  · refine ⟨by simp, fun q hq => ?_⟩
    cases hq
    exact hflag
  · refine ⟨rfl, fun q hq => ?_⟩
    cases hq
    exact hflag

/-! ## A pass of `movePipes` -/

theorem movePipes_play (env : Env) (s : State) (hPlay : s.gameState = .Play) :
    (movePipes env s).gameState = (forEachPipe env s s.pipes).1.gameState ∧
    (movePipes env s).pipes = (forEachPipe env s s.pipes).2 := by
  unfold movePipes
  rw [if_neg (by simp [hPlay])]
  simp [requestAnimationFrame]

theorem movePipesTicks_succ (env : Env) (n : ℕ) (s : State) :
    movePipesTicks env (n + 1) s = movePipes env (movePipesTicks env n s) := by
  unfold movePipesTicks
  rw [Function.iterate_succ_apply']

theorem movePipes_of_not_play (env : Env) (s : State) (h : s.gameState ≠ .Play) :
    movePipes env s = s := by
  unfold movePipes
  rw [if_pos h]

theorem movePipes_score (env : Env) (s : State) (hPlay : s.gameState = .Play) :
    (movePipes env s).score = (forEachPipe env s s.pipes).1.score := by
  unfold movePipes
  rw [if_neg (by simp [hPlay])]
  simp [requestAnimationFrame]

theorem forEachPipe_cons (env : Env) (p : Pipe) (ps : List Pipe) (s : State) :
    forEachPipe env s (p :: ps) =
      ((forEachPipe env (movePipesEach env s p).1 ps).1,
        (movePipesEach env s p).2.toList ++ (forEachPipe env (movePipesEach env s p).1 ps).2) :=
  rfl

/-- The loop over a document in two parts is the loop over the first part
followed by the loop over the second part. -/
theorem forEachPipe_append (env : Env) (l1 l2 : List Pipe) (s : State) :
    forEachPipe env s (l1 ++ l2) =
      ((forEachPipe env (forEachPipe env s l1).1 l2).1,
        (forEachPipe env s l1).2 ++ (forEachPipe env (forEachPipe env s l1).1 l2).2) := by
  induction l1 generalizing s with
  | nil => rfl
  | cons p l1 ih =>
    rw [List.cons_append, forEachPipe_cons, ih, forEachPipe_cons]
    simp only [List.append_assoc]

theorem forEachPipe_toList (env : Env) (o : Option Pipe) (s : State) :
    forEachPipe env s o.toList = ((callbackOn env s o).1, (callbackOn env s o).2.toList) := by
  cases o with
  | none => rfl
  | some q => simp [forEachPipe, callbackOn]

/-- Once the phase is not `Play`, passes of `movePipes` change nothing. -/
theorem movePipesTicks_stuck (env : Env) (s : State) (k : ℕ)
    (h : (movePipesTicks env k s).gameState ≠ .Play) (j : ℕ) :
    movePipesTicks env (k + j) s = movePipesTicks env k s := by
  induction j with
  | zero => rfl
  | succ j ih =>
    rw [← Nat.add_assoc, movePipesTicks_succ, ih, movePipes_of_not_play env _ h]

theorem movePipesTicks_play_before (env : Env) (s : State) (n : ℕ)
    (h : (movePipesTicks env n s).gameState = .Play) (k : ℕ) (hk : k ≤ n) :
    (movePipesTicks env k s).gameState = .Play := by
  by_contra hc
  obtain ⟨j, rfl⟩ : ∃ j, n = k + j := ⟨n - k, by omega⟩
  rw [movePipesTicks_stuck env s k hc j] at h
  exact hc h

/-! ## One pipe followed through passes of `movePipes` (C3) -/

theorem follow_succ (env : Env) (s0 : State) (pre : List Pipe) (p : Pipe) (post : List Pipe)
    (n : ℕ) :
    follow env s0 pre p post (n + 1) =
      if (movePipesTicks env n s0).gameState ≠ .Play then follow env s0 pre p post n
      else
        { ahead := (forEachPipe env (movePipesTicks env n s0)
            (follow env s0 pre p post n).ahead).2
          pipe := (callbackOn env (stateAtPipe env s0 pre p post n)
            (follow env s0 pre p post n).pipe).2
          behind := (forEachPipe env
            (callbackOn env (stateAtPipe env s0 pre p post n)
              (follow env s0 pre p post n).pipe).1
            (follow env s0 pre p post n).behind).2 } :=
  rfl

/-- The loop of a pass, cut at the followed pipe. -/
theorem forEachPipe_cut (env : Env) (s : State) (a b : List Pipe) (o : Option Pipe) :
    forEachPipe env s (a ++ o.toList ++ b) =
      ((forEachPipe env (callbackOn env (forEachPipe env s a).1 o).1 b).1,
        (forEachPipe env s a).2 ++ (callbackOn env (forEachPipe env s a).1 o).2.toList ++
          (forEachPipe env (callbackOn env (forEachPipe env s a).1 o).1 b).2) := by
  rw [forEachPipe_append, forEachPipe_append, forEachPipe_toList]

/-- The document before pass `n` is the pipes ahead, the followed pipe and the
pipes behind. -/
theorem follow_doc (env : Env) (s0 : State) (pre : List Pipe) (p : Pipe) (post : List Pipe)
    (hdoc : s0.pipes = pre ++ p :: post) (n : ℕ) :
    (movePipesTicks env n s0).pipes =
      (follow env s0 pre p post n).ahead ++ (follow env s0 pre p post n).pipe.toList ++
        (follow env s0 pre p post n).behind := by
  induction n with
  | zero =>
    show s0.pipes = pre ++ [p] ++ post
    rw [hdoc]
    simp
  | succ n ih =>
    rw [movePipesTicks_succ, follow_succ]
    by_cases hP : (movePipesTicks env n s0).gameState = .Play
    · rw [if_neg (by simp [hP]), (movePipes_play env _ hP).2, ih, forEachPipe_cut]
      rfl
    · rw [if_pos hP, movePipes_of_not_play env _ hP, ih]

/-- A pass executed in phase `Play` runs the callback on the followed pipe once,
after the pipes ahead and before the pipes behind. -/
theorem pass_score (env : Env) (s0 : State) (pre : List Pipe) (p : Pipe) (post : List Pipe)
    (hdoc : s0.pipes = pre ++ p :: post) (n : ℕ)
    (hP : (movePipesTicks env n s0).gameState = .Play) :
    (movePipesTicks env (n + 1) s0).score =
      (forEachPipe env
        (callbackOn env (stateAtPipe env s0 pre p post n) (follow env s0 pre p post n).pipe).1
        (follow env s0 pre p post n).behind).1.score := by
  rw [movePipesTicks_succ, movePipes_score env _ hP, follow_doc env s0 pre p post hdoc n,
    forEachPipe_cut]
  rfl

/-- One run of the callback leaves the score and the flag alone, or adds 1 to
the score of a flagged pipe and sets its flag to `'0'`. -/
theorem movePipesEach_score_cases (env : Env) (s : State) (q : Pipe) :
    ((movePipesEach env s q).1.score = s.score ∧
      ∀ r, (movePipesEach env s q).2 = some r → r.increaseScore = q.increaseScore) ∨
    ((movePipesEach env s q).1.score = s.score + 1 ∧ q.increaseScore = some "1" ∧
      ∀ r, (movePipesEach env s q).2 = some r → r.increaseScore = some "0") := by
  unfold movePipesEach
  simp only []
  split_ifs with h1 h2 h3 h4
  · left
    exact ⟨rfl, fun r hr => by cases hr⟩
  · left
    refine ⟨by simp, fun r hr => ?_⟩
    cases hr
    rfl
  · right
    refine ⟨rfl, h3, fun r hr => ?_⟩
    cases hr
    rfl
  · left
    refine ⟨rfl, fun r hr => ?_⟩
    cases hr
    rfl
  · left
    refine ⟨rfl, fun r hr => ?_⟩
    cases hr
    rfl

/-- What a pass adds for the followed pipe is 0 or 1; it is 0 when the pipe does
not carry the flag, and after a pass that added 1 the pipe does not carry it. -/
theorem scoreAdded_step (env : Env) (s0 : State) (pre : List Pipe) (p : Pipe) (post : List Pipe)
    (n : ℕ) :
    ((∀ q, (follow env s0 pre p post n).pipe = some q → q.increaseScore ≠ some "1") →
      scoreAdded env s0 pre p post n = 0 ∧
      ∀ q, (follow env s0 pre p post (n + 1)).pipe = some q → q.increaseScore ≠ some "1") ∧
    (scoreAdded env s0 pre p post n = 0 ∨
      (scoreAdded env s0 pre p post n = 1 ∧
        ∀ q, (follow env s0 pre p post (n + 1)).pipe = some q →
          q.increaseScore ≠ some "1")) := by
  by_cases hP : (movePipesTicks env n s0).gameState = .Play
  · have hadd : scoreAdded env s0 pre p post n =
        ((callbackOn env (stateAtPipe env s0 pre p post n)
            (follow env s0 pre p post n).pipe).1.score : ℤ) -
          ((stateAtPipe env s0 pre p post n).score : ℤ) := by
      unfold scoreAdded
      rw [if_neg (by simp [hP])]
    have hnext : (follow env s0 pre p post (n + 1)).pipe =
        (callbackOn env (stateAtPipe env s0 pre p post n)
          (follow env s0 pre p post n).pipe).2 := by
      rw [follow_succ, if_neg (by simp [hP])]
    rw [hadd, hnext]
    cases hq : (follow env s0 pre p post n).pipe with
    | none =>
      have h0 : ((callbackOn env (stateAtPipe env s0 pre p post n) none).1.score : ℤ) -
          ((stateAtPipe env s0 pre p post n).score : ℤ) = 0 := sub_self _
      exact ⟨fun _ => ⟨h0, fun q hq' => by cases hq'⟩, Or.inl h0⟩
    | some q0 =>
      show (_ → ((movePipesEach env _ q0).1.score : ℤ) - _ = 0 ∧
          ∀ q, (movePipesEach env _ q0).2 = some q → _) ∧
        (((movePipesEach env _ q0).1.score : ℤ) - _ = 0 ∨
          (((movePipesEach env _ q0).1.score : ℤ) - _ = 1 ∧
            ∀ q, (movePipesEach env _ q0).2 = some q → _))
      rcases movePipesEach_score_cases env (stateAtPipe env s0 pre p post n) q0 with
        ⟨h1, h2⟩ | ⟨h1, h2, h3⟩
      · rw [h1]
        refine ⟨fun hu => ⟨sub_self _, fun q hq' => ?_⟩, Or.inl (sub_self _)⟩
        rw [h2 q hq']
        exact hu q0 rfl
      · rw [h1]
        have hflag0 : ∀ q, (movePipesEach env (stateAtPipe env s0 pre p post n) q0).2 = some q →
            q.increaseScore ≠ some "1" := by
          intro q hq'
          rw [h3 q hq']
          simp
        refine ⟨fun hu => absurd h2 (hu q0 rfl), Or.inr ⟨?_, hflag0⟩⟩
        push_cast
        ring
  · have hadd : scoreAdded env s0 pre p post n = 0 := by
      unfold scoreAdded
      rw [if_pos hP]
    have hnext : follow env s0 pre p post (n + 1) = follow env s0 pre p post n := by
      rw [follow_succ, if_pos hP]
    rw [hadd, hnext]
    exact ⟨fun hu => ⟨rfl, hu⟩, Or.inl rfl⟩

/-- Over any number of passes the followed pipe adds 0, or it has added 1 and no
longer carries the flag. -/
theorem scoreAdded_sum (env : Env) (s0 : State) (pre : List Pipe) (p : Pipe) (post : List Pipe)
    (N : ℕ) :
    (Finset.range N).sum (scoreAdded env s0 pre p post) = 0 ∨
    ((Finset.range N).sum (scoreAdded env s0 pre p post) = 1 ∧
      ∀ q, (follow env s0 pre p post N).pipe = some q → q.increaseScore ≠ some "1") := by
  induction N with
  | zero => left; rfl
  | succ N ih =>
    rw [Finset.sum_range_succ]
    obtain ⟨hu, hc⟩ := scoreAdded_step env s0 pre p post N
    rcases ih with h0 | ⟨h1, hflag⟩
    · rw [h0, zero_add]
      rcases hc with h | ⟨h, hf⟩
      · left; exact h
      · right; exact ⟨h, hf⟩
    · obtain ⟨g0, gf⟩ := hu hflag
      right
      rw [h1, g0]
      exact ⟨rfl, gf⟩

theorem scoreAdded_unflagged (env : Env) (s0 : State) (pre : List Pipe) (p : Pipe)
    (post : List Pipe) (n : ℕ)
    (hu : ∀ q, (follow env s0 pre p post n).pipe = some q → q.increaseScore ≠ some "1")
    (j : ℕ) :
    scoreAdded env s0 pre p post (n + j) = 0 ∧
    ∀ q, (follow env s0 pre p post (n + j)).pipe = some q → q.increaseScore ≠ some "1" := by
  induction j with
  | zero => exact ⟨((scoreAdded_step env s0 pre p post n).1 hu).1, hu⟩
  | succ j ih =>
    have hnext := ((scoreAdded_step env s0 pre p post (n + j)).1 ih.2).2
    exact ⟨((scoreAdded_step env s0 pre p post (n + j + 1)).1 hnext).1, hnext⟩

/-- Until the pass in which it is first seen left of the bird, the followed pipe
stays in the document, moves left by `moveSpeed` a pass and adds nothing. -/
theorem follow_until_passed (env : Env) (s0 : State) (pre : List Pipe) (p : Pipe)
    (post : List Pipe) (n : ℕ)
    (hP : (movePipesTicks env n s0).gameState = .Play)
    (hfirst : ∀ k < n, ¬ p.getBoundingClientRect.right - k * moveSpeed <
      (env.birdRect (stateAtPipe env s0 pre p post k)).left)
    (hvisible : 0 < p.getBoundingClientRect.right - n * moveSpeed) :
    ∀ k ≤ n, (follow env s0 pre p post k).pipe = some { p with left := p.left - k * moveSpeed } ∧
      (k < n → scoreAdded env s0 pre p post k = 0) := by
  have hvis : ∀ k : ℕ, k ≤ n → 0 < p.getBoundingClientRect.right - k * moveSpeed := by
    intro k hk
    have hkq : (k : ℚ) ≤ n := by exact_mod_cast hk
    have hms : moveSpeed = 1 := rfl
    rw [hms] at hvisible ⊢
    linarith
  have hr : ∀ k : ℕ, ({ p with left := p.left - k * moveSpeed } : Pipe).getBoundingClientRect.right =
      p.getBoundingClientRect.right - k * moveSpeed := by
    intro k
    simp only [Pipe.getBoundingClientRect, Rect.right]; ring
  have key : ∀ k ≤ n,
      (follow env s0 pre p post k).pipe = some { p with left := p.left - k * moveSpeed } := by
    intro k
    induction k with
    | zero =>
      intro _
      show some p = _
      simp
    | succ k ih =>
      intro hk
      have hk' : k < n := hk
      have hPk := movePipesTicks_play_before env s0 n hP k (le_of_lt hk')
      have h1 := ih (le_of_lt hk')
      have h2 := movePipesEach_not_passed env (stateAtPipe env s0 pre p post k)
        { p with left := p.left - k * moveSpeed }
        (by rw [hr]; exact hvis k (le_of_lt hk')) (by rw [hr]; exact hfirst k hk')
      rw [follow_succ, if_neg (by simp [hPk])]
      show (callbackOn env _ (follow env s0 pre p post k).pipe).2 = _
      rw [h1]
      show (movePipesEach env _ _).2 = _
      rw [h2.2]
      congr 2
      push_cast
      ring
  intro k hk
  refine ⟨key k hk, fun hkn => ?_⟩
  have hPk := movePipesTicks_play_before env s0 n hP k hk
  have h2 := movePipesEach_not_passed env (stateAtPipe env s0 pre p post k)
    { p with left := p.left - k * moveSpeed }
    (by rw [hr]; exact hvis k hk) (by rw [hr]; exact hfirst k hkn)
  unfold scoreAdded
  rw [if_neg (by simp [hPk]), key k hk]
  show ((movePipesEach env _ _).1.score : ℤ) - _ = 0
  rw [h2.1]
  exact sub_self _

/-- Counterexample to C3: the bird's box has its left edge half a pixel from the
left edge of the screen and a flagged pipe has its right edge at 1. Pass 0 sees
the right edge at 1, not left of the bird. Pass 1 is the first pass in which the
right edge (0) is strictly left of the bird's left edge (1/2): it removes the pipe
and the score stays 0. -/
theorem score_once_counterexample :
    pipeAtEdge.gameState = .Play ∧
    pipeAtEdge.pipes.map (fun q => (q.getBoundingClientRect.right, q.increaseScore)) =
      [((1 : ℚ), some "1")] ∧
    (edgeEnv.birdRect pipeAtEdge).left = 1 / 2 ∧
    (movePipesTicks edgeEnv 1 pipeAtEdge).gameState = .Play ∧
    (movePipesTicks edgeEnv 1 pipeAtEdge).pipes.map
      (fun q => (q.getBoundingClientRect.right, q.increaseScore)) = [((0 : ℚ), some "1")] ∧
    (edgeEnv.birdRect (movePipesTicks edgeEnv 1 pipeAtEdge)).left = 1 / 2 ∧
    (movePipesTicks edgeEnv 1 pipeAtEdge).score = 0 ∧
    (movePipesTicks edgeEnv 2 pipeAtEdge).gameState = .Play ∧
    (movePipesTicks edgeEnv 2 pipeAtEdge).score = 0 ∧
    (movePipesTicks edgeEnv 2 pipeAtEdge).pipes = [] := by
  have h1 : movePipes edgeEnv pipeAtEdge =
      { pipeAtEdge with
        pipes := [{ left := -96, top := 321, width := 96, height := 540,
                    increaseScore := some "1" }]
        rafMovePipes := some 1, lastHandle := 1, scheduled := [(1, Callback.movePipes)] } := by
    simp [movePipes, pipeAtEdge, edgeEnv, forEachPipe, movePipesEach, State.init, isCollision,
      Pipe.getBoundingClientRect, Rect.right, requestAnimationFrame, moveSpeed]
    norm_num
  have h2 : movePipes edgeEnv (movePipes edgeEnv pipeAtEdge) =
      { pipeAtEdge with
        pipes := []
        rafMovePipes := some 2, lastHandle := 2,
        scheduled := [(1, Callback.movePipes), (2, Callback.movePipes)] } := by
    rw [h1]
    simp [movePipes, pipeAtEdge, edgeEnv, forEachPipe, movePipesEach, State.init, isCollision,
      Pipe.getBoundingClientRect, Rect.right, requestAnimationFrame, moveSpeed]
  have e1 : movePipesTicks edgeEnv 1 pipeAtEdge = movePipes edgeEnv pipeAtEdge := rfl
  have e2 : movePipesTicks edgeEnv 2 pipeAtEdge =
      movePipes edgeEnv (movePipes edgeEnv pipeAtEdge) := rfl
  rw [e1, e2, h2, h1]
  refine ⟨rfl, ?_, rfl, rfl, ?_, rfl, rfl, rfl, rfl, rfl⟩
  · simp [pipeAtEdge, Pipe.getBoundingClientRect, Rect.right]
    norm_num
  · simp [Pipe.getBoundingClientRect, Rect.right]

/-- C3 (amended): follow one pipe `p` of the document through passes of
`movePipes` from any state, whatever other pipes the document holds. The
document before each pass is the pipes ahead, the followed pipe and the pipes
behind; a pass executed in phase `Play` runs the callback on the followed pipe
once, between the two, and `scoreAdded` is what that run adds to the score. Every
pass adds 0 or 1 for the pipe and all passes together add at most 1; a pipe
without the flag `'1'` (the top barrier) adds nothing. If the pipe carries the
flag and pass `n`, executed in phase `Play`, is the first pass in which its right
edge is strictly left of the bird's left edge, and its right edge is still
greater than 0 in that pass, then pass `n` adds exactly 1, sets the flag to `'0'`
in that same pass, and no other pass adds anything for the pipe. -/
theorem movePipes_scores_once (env : Env) (s0 : State) (pre : List Pipe) (p : Pipe)
    (post : List Pipe) (hdoc : s0.pipes = pre ++ p :: post) :
    (∀ n, (movePipesTicks env n s0).pipes =
      (follow env s0 pre p post n).ahead ++ (follow env s0 pre p post n).pipe.toList ++
        (follow env s0 pre p post n).behind) ∧
    (∀ n, (movePipesTicks env n s0).gameState = .Play →
      (movePipesTicks env (n + 1) s0).score =
        (forEachPipe env
          (callbackOn env (stateAtPipe env s0 pre p post n)
            (follow env s0 pre p post n).pipe).1
          (follow env s0 pre p post n).behind).1.score ∧
      ((callbackOn env (stateAtPipe env s0 pre p post n)
          (follow env s0 pre p post n).pipe).1.score : ℤ) =
        (stateAtPipe env s0 pre p post n).score + scoreAdded env s0 pre p post n) ∧
    (∀ n, scoreAdded env s0 pre p post n = 0 ∨ scoreAdded env s0 pre p post n = 1) ∧
    (∀ N, (Finset.range N).sum (scoreAdded env s0 pre p post) ≤ 1) ∧
    (p.increaseScore ≠ some "1" → ∀ n, scoreAdded env s0 pre p post n = 0) ∧
    (∀ n, p.increaseScore = some "1" →
      (movePipesTicks env n s0).gameState = .Play →
      p.getBoundingClientRect.right - n * moveSpeed <
        (env.birdRect (stateAtPipe env s0 pre p post n)).left →
      (∀ k < n, ¬ p.getBoundingClientRect.right - k * moveSpeed <
        (env.birdRect (stateAtPipe env s0 pre p post k)).left) →
      0 < p.getBoundingClientRect.right - n * moveSpeed →
      (follow env s0 pre p post n).pipe = some { p with left := p.left - n * moveSpeed } ∧
      scoreAdded env s0 pre p post n = 1 ∧
      (follow env s0 pre p post (n + 1)).pipe =
        some { p with left := p.left - (n + 1) * moveSpeed, increaseScore := some "0" } ∧
      (∀ k, k ≠ n → scoreAdded env s0 pre p post k = 0) ∧
      ∀ N, (Finset.range N).sum (scoreAdded env s0 pre p post) = if n < N then 1 else 0) := by
  refine ⟨follow_doc env s0 pre p post hdoc, ?_, ?_, ?_, ?_, ?_⟩
  · intro n hP
    refine ⟨pass_score env s0 pre p post hdoc n hP, ?_⟩
    unfold scoreAdded
    rw [if_neg (by simp [hP])]
    ring
  · intro n
    rcases (scoreAdded_step env s0 pre p post n).2 with h | ⟨h, _⟩
    · exact Or.inl h
    · exact Or.inr h
  · intro N
    rcases scoreAdded_sum env s0 pre p post N with h | ⟨h, _⟩
    · rw [h]; norm_num
    · rw [h]
  · intro hflag n
    have h := scoreAdded_unflagged env s0 pre p post 0
      (fun q hq => by
        have hq' : some p = some q := hq
        cases hq'
        exact hflag) n
    rw [Nat.zero_add] at h
    exact h.1
  · intro n hflag hP hpassed hfirst hvisible
    have hbefore := follow_until_passed env s0 pre p post n hP hfirst hvisible
    have hn := (hbefore n (le_refl n)).1
    have hr : ({ p with left := p.left - n * moveSpeed } : Pipe).getBoundingClientRect.right =
        p.getBoundingClientRect.right - n * moveSpeed := by
      simp only [Pipe.getBoundingClientRect, Rect.right]; ring
    have hstep := movePipesEach_scores env (stateAtPipe env s0 pre p post n)
      { p with left := p.left - n * moveSpeed }
      (by rw [hr]; exact hvisible) hflag (by rw [hr]; exact hpassed)
    have hgain : scoreAdded env s0 pre p post n = 1 := by
      unfold scoreAdded
      rw [if_neg (by simp [hP]), hn]
      show ((movePipesEach env _ _).1.score : ℤ) - _ = 1
      rw [hstep]
      push_cast
      ring
    have hafter : (follow env s0 pre p post (n + 1)).pipe =
        some { p with left := p.left - (n + 1) * moveSpeed, increaseScore := some "0" } := by
      rw [follow_succ, if_neg (by simp [hP])]
      show (callbackOn env _ (follow env s0 pre p post n).pipe).2 = _
      rw [hn]
      show (movePipesEach env _ _).2 = _
      rw [hstep]
      show some _ = some _
      congr 2
      ring
    have hlate := scoreAdded_unflagged env s0 pre p post (n + 1)
      (fun q hq => by
        rw [hafter] at hq
        cases hq
        simp)
    have hother : ∀ k, k ≠ n → scoreAdded env s0 pre p post k = 0 := by
      intro k hk
      rcases Nat.lt_or_gt_of_ne hk with h | h
      · exact (hbefore k (le_of_lt h)).2 h
      · obtain ⟨j, rfl⟩ : ∃ j, k = n + 1 + j := ⟨k - (n + 1), by omega⟩
        exact (hlate j).1
    refine ⟨hn, hgain, hafter, hother, ?_⟩
    intro N
    split_ifs with h
    · rw [Finset.sum_eq_single n (fun k _ hk => hother k hk)
        (fun hN => absurd (Finset.mem_range.mpr h) hN), hgain]
    · exact Finset.sum_eq_zero (fun k hk =>
        hother k (by have := Finset.mem_range.mp hk; omega))

/-- Witness for C3 (amended): in `twoPairs` the bottom barrier of the newer pair
is followed; its right edge is at 200.5 and the bird's left edge at 200, so pass 0
adds nothing, pass 1 adds 1, and 500 passes add 1 in all. -/
theorem movePipes_scores_once_witness :
    scoreAdded fixtureEnv twoPairs
      [⟨-17, -429, 96, 540, none⟩, ⟨-17, 321, 96, 540, some "0"⟩,
        ⟨209 / 2, -429, 96, 540, none⟩]
      ⟨209 / 2, 321, 96, 540, some "1"⟩ [] 1 = 1 ∧
    scoreAdded fixtureEnv twoPairs
      [⟨-17, -429, 96, 540, none⟩, ⟨-17, 321, 96, 540, some "0"⟩,
        ⟨209 / 2, -429, 96, 540, none⟩]
      ⟨209 / 2, 321, 96, 540, some "1"⟩ [] 0 = 0 ∧
    (Finset.range 500).sum (scoreAdded fixtureEnv twoPairs
      [⟨-17, -429, 96, 540, none⟩, ⟨-17, 321, 96, 540, some "0"⟩,
        ⟨209 / 2, -429, 96, 540, none⟩]
      ⟨209 / 2, 321, 96, 540, some "1"⟩ []) = 1 := by
  have hplay : (movePipesTicks fixtureEnv 1 twoPairs).gameState = .Play := by
    show (movePipes fixtureEnv twoPairs).gameState = .Play
    simp [movePipes, twoPairs, fixtureEnv, forEachPipe, movePipesEach, State.init, isCollision,
      Pipe.getBoundingClientRect, Rect.right, requestAnimationFrame, moveSpeed]
    norm_num
  have h := (movePipes_scores_once fixtureEnv twoPairs
    [⟨-17, -429, 96, 540, none⟩, ⟨-17, 321, 96, 540, some "0"⟩,
      ⟨209 / 2, -429, 96, 540, none⟩]
    ⟨209 / 2, 321, 96, 540, some "1"⟩ [] rfl).2.2.2.2.2 1 rfl hplay
    (by norm_num [Pipe.getBoundingClientRect, Rect.right, fixtureEnv, moveSpeed])
    (by
      intro k hk
      interval_cases k
      norm_num [Pipe.getBoundingClientRect, Rect.right, fixtureEnv, moveSpeed])
    (by norm_num [Pipe.getBoundingClientRect, Rect.right, moveSpeed])
  exact ⟨h.2.1, h.2.2.2.1 0 (by decide), by rw [h.2.2.2.2 500]; rfl⟩

/-! ## A pass of `movePipes` over pipes the bird does not touch (C7) -/

/-- The rectangle of a pipe after one pass of `movePipes`. -/
theorem movePipesEach_alive (env : Env) (s : State) (p : Pipe)
    (hvis : 0 < p.getBoundingClientRect.right)
    (hfree : isCollision (env.birdRect s) p.getBoundingClientRect = false) :
    (movePipesEach env s p).1.gameState = s.gameState ∧
    ∃ q, (movePipesEach env s p).2 = some q ∧
      q.getBoundingClientRect =
        { p.getBoundingClientRect with left := p.getBoundingClientRect.left - moveSpeed } := by
  unfold movePipesEach
  simp only []
  rw [if_neg (not_le.mpr hvis), hfree]
  simp only [Bool.false_eq_true, if_false]
  split_ifs <;> exact ⟨rfl, _, rfl, rfl⟩

theorem forEachPipe_alive (env : Env) (ps : List Pipe) (s : State)
    (hvis : ∀ p ∈ ps, 0 < p.getBoundingClientRect.right)
    (hfree : ∀ t, ∀ p ∈ ps, isCollision (env.birdRect t) p.getBoundingClientRect = false) :
    (forEachPipe env s ps).1.gameState = s.gameState ∧
    (forEachPipe env s ps).2.map Pipe.getBoundingClientRect =
      (ps.map Pipe.getBoundingClientRect).map
        (fun r => { r with left := r.left - moveSpeed }) := by
  induction ps generalizing s with
  | nil => exact ⟨rfl, rfl⟩
  | cons p ps ih =>
    obtain ⟨h1, q, h2, h3⟩ := movePipesEach_alive env s p
      (hvis p (List.mem_cons_self _ _)) (hfree s p (List.mem_cons_self _ _))
    obtain ⟨g1, g2⟩ := ih (movePipesEach env s p).1
      (fun p hp => hvis p (List.mem_cons_of_mem _ hp))
      (fun t p hp => hfree t p (List.mem_cons_of_mem _ hp))
    unfold forEachPipe
    simp only []
    refine ⟨by rw [g1, h1], ?_⟩
    rw [h2, List.map_append, g2]
    simp [h3]

theorem forEachPipe_gone (env : Env) (ps : List Pipe) (s : State)
    (hgone : ∀ p ∈ ps, p.getBoundingClientRect.right ≤ 0) :
    forEachPipe env s ps = (s, []) := by
  induction ps with
  | nil => rfl
  | cons p ps ih =>
    unfold forEachPipe
    simp only []
    rw [movePipesEach_removed env s p (hgone p (List.mem_cons_self _ _)),
      ih (fun p hp => hgone p (List.mem_cons_of_mem _ hp))]
    rfl

/-- While every pipe is still on screen and the bird touches none of them, `n`
passes of `movePipes` shift every pipe left by `n * moveSpeed` and keep the game
running. -/
theorem movePipesTicks_shift (env : Env) (s : State) (hPlay : s.gameState = .Play) (n : ℕ)
    (hvis : ∀ p ∈ s.pipes, ∀ k : ℕ, k < n →
      0 < p.getBoundingClientRect.right - k * moveSpeed)
    (hfree : ∀ (t : State) (x : ℚ), ∀ p ∈ s.pipes,
      isCollision (env.birdRect t) { p.getBoundingClientRect with left := x } = false) :
    (movePipesTicks env n s).gameState = .Play ∧
    (movePipesTicks env n s).pipes.map Pipe.getBoundingClientRect =
      (s.pipes.map Pipe.getBoundingClientRect).map
        (fun r => { r with left := r.left - n * moveSpeed }) := by
  induction n with
  | zero =>
    refine ⟨hPlay, ?_⟩
    show s.pipes.map Pipe.getBoundingClientRect = _
    simp
  | succ n ih =>
    obtain ⟨h1, h2⟩ := ih (fun p hp k hk => hvis p hp k (Nat.lt_succ_of_lt hk))
    have hmem : ∀ q ∈ (movePipesTicks env n s).pipes, ∃ p ∈ s.pipes,
        q.getBoundingClientRect =
          { p.getBoundingClientRect with left := p.getBoundingClientRect.left - n * moveSpeed } := by
      intro q hq
      have : q.getBoundingClientRect ∈
          (movePipesTicks env n s).pipes.map Pipe.getBoundingClientRect :=
        List.mem_map_of_mem _ hq
      rw [h2] at this
      simp only [List.mem_map] at this
      obtain ⟨r, ⟨p, hp, rfl⟩, hr⟩ := this
      exact ⟨p, hp, hr.symm⟩
    obtain ⟨g1, g2⟩ := forEachPipe_alive env (movePipesTicks env n s).pipes (movePipesTicks env n s)
      (by
        intro q hq
        obtain ⟨p, hp, hqp⟩ := hmem q hq
        have := hvis p hp n (Nat.lt_succ_self n)
        rw [hqp]
        simp only [Rect.right] at this ⊢
        linarith)
      (by
        intro t q hq
        obtain ⟨p, hp, hqp⟩ := hmem q hq
        rw [hqp]
        exact hfree t _ p hp)
    obtain ⟨m1, m2⟩ := movePipes_play env (movePipesTicks env n s) h1
    rw [movePipesTicks_succ]
    refine ⟨by rw [m1, g1, h1], ?_⟩
    rw [m2, g2, h2]
    simp only [List.map_map]
    apply List.map_congr_left
    intro p _
    simp only [Function.comp, Pipe.getBoundingClientRect]
    congr 1
    push_cast
    ring

theorem mathRound_eq (x : ℚ) (z : ℤ) (h1 : (z : ℚ) ≤ x + 1 / 2) (h2 : x + 1 / 2 < z + 1) :
    mathRound x = z :=
  Int.floor_eq_iff.mpr ⟨h1, h2⟩

/-- The rounded product of an integer and a decimal literal, away from a tie. -/
theorem mathRound_fl64_mul (n : ℕ) (c : ℚ) (z : ℤ) (hc : 0 ≤ c)
    (h1 : (z : ℚ) ≤ (n : ℚ) * c * (1 - 1 / 2 ^ 50) + 1 / 2)
    (h2 : (n : ℚ) * c * (1 + 1 / 2 ^ 50) + 1 / 2 < z + 1) :
    mathRound (fl64 ((n : ℚ) * fl64 c)) = z := by
  obtain ⟨_, b1, b2⟩ := fl64_mul_bounds n c hc
  exact mathRound_eq _ z (by linarith) (by linarith)

theorem pipeWidthOf_800 : pipeWidthOf 800 = 96 := by
  obtain ⟨_, b1, _⟩ := fl64_mul_bounds 800 (12 / 100) (by norm_num)
  unfold pipeWidthOf
  rw [max_eq_right (by norm_num at b1 ⊢; linarith),
    mathRound_fl64_mul 800 (12 / 100) 96 (by norm_num) (by norm_num) (by norm_num)]
  norm_num

theorem pipeGapOf_600 : pipeGapOf 600 = 210 := by
  unfold pipeGapOf
  rw [mathRound_fl64_mul 600 (35 / 100) 210 (by norm_num) (by norm_num) (by norm_num)]
  norm_num

theorem gapTopMinOf_600 : gapTopMinOf 600 = 72 := by
  unfold gapTopMinOf
  rw [mathRound_fl64_mul 600 (12 / 100) 72 (by norm_num) (by norm_num) (by norm_num)]
  norm_num

theorem gapTopMaxOf_600 : gapTopMaxOf 600 = 150 := by
  obtain ⟨_, b1, b2⟩ := fl64_mul_bounds 600 (60 / 100) (by norm_num)
  norm_num at b1 b2
  unfold gapTopMaxOf
  rw [pipeGapOf_600]
  have hpos : 0 ≤ fl64 (((600 : ℕ) : ℚ) * fl64 (60 / 100)) - 210 := by linarith
  have u := fl64_le _ hpos
  have l := fl64_ge _ hpos
  rw [mathRound_eq _ 150 (by push_cast; linarith) (by push_cast; linarith)]
  norm_num

theorem gapTopOf_600_half : gapTopOf 600 (1 / 2) = 111 := by
  unfold gapTopOf
  rw [gapTopMaxOf_600, gapTopMinOf_600]
  have e : (1 : ℚ) / 2 * (max 1 (150 - 72) + 1) = 79 / 2 := by norm_num
  rw [e]
  have u := fl64_le (79 / 2) (by norm_num)
  have l := fl64_ge (79 / 2) (by norm_num)
  unfold mathFloor
  rw [Int.floor_eq_iff.mpr
    (⟨by push_cast; linarith, by push_cast; linarith⟩ :
      ((39 : ℤ) : ℚ) ≤ fl64 (79 / 2) ∧ fl64 (79 / 2) < ((39 : ℤ) : ℚ) + 1)]
  norm_num

/-- The bird of `fixtureEnv` flies in the gap of the pair spawned with the draw
1/2: it touches neither barrier, wherever the pair is horizontally. -/
theorem fixture_free (t : State) (x : ℚ) :
    ∀ p ∈ [topPipeOf fixtureEnv (1 / 2), bottomPipeOf fixtureEnv (1 / 2)],
      isCollision (fixtureEnv.birdRect t) { p.getBoundingClientRect with left := x } = false := by
  have hg : gapTopOf fixtureEnv.vh (1 / 2) = 111 := gapTopOf_600_half
  have hp : pipeGapOf fixtureEnv.vh = 210 := pipeGapOf_600
  intro p hp'
  rw [Bool.eq_false_iff, ne_eq, isCollision_iff]
  simp only [List.mem_cons, List.mem_singleton, List.not_mem_nil, or_false] at hp'
  rcases hp' with rfl | rfl
  · rintro ⟨_, _, h3, _⟩
    simp only [topPipeOf, Pipe.getBoundingClientRect, hg] at h3
    norm_num [fixtureEnv] at h3
  · rintro ⟨_, _, _, h4⟩
    simp only [bottomPipeOf, Pipe.getBoundingClientRect, hg, hp] at h4
    norm_num [fixtureEnv] at h4

/-- The pair spawned at the right edge of a viewport 800 wide, followed through
passes of `movePipes` that see no collision: present and shifted for the first
896 passes, removed by pass 897. -/
theorem spawned_pair_track (env : Env) (rand : ℚ) (s : State)
    (hvw : env.vw = 800) (hPlay : s.gameState = .Play) (hspawn : 120 ≤ s.pipeTimer)
    (hempty : s.pipes = [])
    (hfree : ∀ (t : State) (x : ℚ), ∀ p ∈ [topPipeOf env rand, bottomPipeOf env rand],
      isCollision (env.birdRect t) { p.getBoundingClientRect with left := x } = false) :
    (createPipes env rand s).pipes = [topPipeOf env rand, bottomPipeOf env rand] ∧
    (∀ n : ℕ, n ≤ 896 →
      (movePipesTicks env n (createPipes env rand s)).gameState = .Play ∧
      (movePipesTicks env n (createPipes env rand s)).pipes.map Pipe.getBoundingClientRect =
        [{ (topPipeOf env rand).getBoundingClientRect with left := 800 - n },
         { (bottomPipeOf env rand).getBoundingClientRect with left := 800 - n }] ∧
      (movePipesTicks env n (createPipes env rand s)).pipes.map
        (fun p => p.getBoundingClientRect.right) = [(896 : ℚ) - n, (896 : ℚ) - n]) ∧
    (movePipesTicks env 897 (createPipes env rand s)).pipes = [] := by
  have hms : moveSpeed = 1 := rfl
  obtain ⟨c1, _, c3⟩ := createPipes_play env rand s hPlay
  have hpipes : (createPipes env rand s).pipes = [topPipeOf env rand, bottomPipeOf env rand] := by
    rw [c3, if_pos (by omega), hempty]
    rfl
  have hw : pipeWidthOf env.vw = 96 := by rw [hvw]; exact pipeWidthOf_800
  have hvwq : (env.vw : ℚ) = 800 := by rw [hvw]; norm_num
  have hright : ∀ p ∈ (createPipes env rand s).pipes, p.getBoundingClientRect.right = 896 := by
    intro p hp
    rw [hpipes] at hp
    simp only [List.mem_cons, List.mem_singleton, List.not_mem_nil, or_false] at hp
    rcases hp with rfl | rfl
    · simp only [topPipeOf, Pipe.getBoundingClientRect, Rect.right, hw, hvwq]; norm_num
    · simp only [bottomPipeOf, Pipe.getBoundingClientRect, Rect.right, hw, hvwq]; norm_num
  have htrack : ∀ n : ℕ, n ≤ 896 →
      (movePipesTicks env n (createPipes env rand s)).gameState = .Play ∧
      (movePipesTicks env n (createPipes env rand s)).pipes.map Pipe.getBoundingClientRect =
        [{ (topPipeOf env rand).getBoundingClientRect with left := 800 - n },
         { (bottomPipeOf env rand).getBoundingClientRect with left := 800 - n }] := by
    intro n hn
    obtain ⟨h1, h2⟩ := movePipesTicks_shift env (createPipes env rand s) c1 n
      (by
        intro p hp k hk
        rw [hright p hp, hms]
        have : (k : ℚ) < 896 := by exact_mod_cast (lt_of_lt_of_le hk hn)
        linarith)
      (by
        intro t x p hp
        rw [hpipes] at hp
        exact hfree t x p hp)
    refine ⟨h1, ?_⟩
    rw [h2, hpipes]
    simp only [List.map_cons, List.map_nil, topPipeOf, bottomPipeOf, Pipe.getBoundingClientRect,
      hvwq, hms, mul_one]
  refine ⟨hpipes, ?_, ?_⟩
  · intro n hn
    obtain ⟨h1, h2⟩ := htrack n hn
    refine ⟨h1, h2, ?_⟩
    have h3 := congrArg (List.map Rect.right) h2
    rw [List.map_map] at h3
    rw [show (fun p : Pipe => p.getBoundingClientRect.right) =
      Rect.right ∘ Pipe.getBoundingClientRect from rfl, h3]
    simp only [List.map_cons, List.map_nil, topPipeOf, bottomPipeOf, Pipe.getBoundingClientRect,
      Rect.right, hw]
    congr 1
    · ring
    · congr 1
      ring
  · obtain ⟨h1, h2⟩ := htrack 896 (le_refl _)
    have hgone : ∀ q ∈ (movePipesTicks env 896 (createPipes env rand s)).pipes,
        q.getBoundingClientRect.right ≤ 0 := by
      intro q hq
      have : q.getBoundingClientRect ∈
          (movePipesTicks env 896 (createPipes env rand s)).pipes.map
            Pipe.getBoundingClientRect := List.mem_map_of_mem _ hq
      rw [h2] at this
      simp only [List.mem_cons, List.mem_singleton, List.not_mem_nil, or_false] at this
      rcases this with h | h <;>
        · rw [h]
          simp only [topPipeOf, bottomPipeOf, Pipe.getBoundingClientRect, Rect.right, hw]
          norm_num
    rw [movePipesTicks_succ, (movePipes_play env _ h1).2, forEachPipe_gone env _ _ hgone]

/-- Counterexample to C7: in an 800 by 600 viewport, 800 passes of `movePipes`
after the spawn (the bird flying in the gap) leave both barriers in the obstacle
set, with their left edge at 0 and their right edge at 96. -/
theorem pipe_800_passes_counterexample :
    (movePipesTicks fixtureEnv 800 (createPipes fixtureEnv (1 / 2) aboutToSpawn)).pipes.map
      (fun p => p.getBoundingClientRect.right) = [(96 : ℚ), (96 : ℚ)] ∧
    (movePipesTicks fixtureEnv 800 (createPipes fixtureEnv (1 / 2) aboutToSpawn)).pipes ≠ [] := by
  have h := ((spawned_pair_track fixtureEnv (1 / 2) aboutToSpawn rfl rfl (by decide) rfl
    fixture_free).2.1 800 (by norm_num)).2.2
  have h96 : ((896 : ℚ) - (800 : ℕ)) = 96 := by norm_num
  rw [h96] at h
  refine ⟨h, fun hnil => ?_⟩
  rw [hnil] at h
  cases h

/-! ## The bounding rectangles through passes of `movePipes` -/

theorem movePipesEach_rect (env : Env) (s : State) (p : Pipe) :
    (movePipesEach env s p).2.toList.map Pipe.getBoundingClientRect =
      passRects [p.getBoundingClientRect] := by
  by_cases h : p.getBoundingClientRect.right ≤ 0
  · have hf : decide (0 < p.getBoundingClientRect.right) = false :=
      decide_eq_false (not_lt.mpr h)
    rw [movePipesEach_removed env s p h]
    unfold passRects
    simp only [List.filter_cons, hf, List.filter_nil]
    rfl
  · have hf : decide (0 < p.getBoundingClientRect.right) = true :=
      decide_eq_true (not_le.mp h)
    unfold passRects
    simp only [List.filter_cons, hf, if_true, List.filter_nil, List.map_cons, List.map_nil]
    unfold movePipesEach
    simp only []
    rw [if_neg h]
    split_ifs <;> rfl

theorem passRects_append (a b : List Rect) : passRects (a ++ b) = passRects a ++ passRects b := by
  unfold passRects
  rw [List.filter_append, List.map_append]

/-- The loop of `movePipes` moves and removes pipes the same way whatever the
bird does. -/
theorem forEachPipe_rects (env : Env) (ps : List Pipe) (s : State) :
    (forEachPipe env s ps).2.map Pipe.getBoundingClientRect =
      passRects (ps.map Pipe.getBoundingClientRect) := by
  induction ps generalizing s with
  | nil => rfl
  | cons p ps ih =>
    unfold forEachPipe
    simp only []
    rw [List.map_append, movePipesEach_rect, ih, List.map_cons, ← passRects_append]
    rfl

theorem passRects_iterate_append (n : ℕ) (a b : List Rect) :
    passRects^[n] (a ++ b) = passRects^[n] a ++ passRects^[n] b := by
  induction n generalizing a b with
  | zero => rfl
  | succ n ih =>
    rw [Function.iterate_succ_apply, Function.iterate_succ_apply, Function.iterate_succ_apply,
      passRects_append, ih]

theorem passRects_iterate_nil (n : ℕ) : passRects^[n] [] = [] := by
  induction n with
  | zero => rfl
  | succ n ih => rw [Function.iterate_succ_apply]; exact ih

/-- Passes of `movePipes` that are executed in phase `Play` act on the bounding
rectangles as `passRects`. -/
theorem movePipesTicks_rects (env : Env) (s : State) (n : ℕ)
    (hrun : ∀ k < n, (movePipesTicks env k s).gameState = .Play) :
    (movePipesTicks env n s).pipes.map Pipe.getBoundingClientRect =
      passRects^[n] (s.pipes.map Pipe.getBoundingClientRect) := by
  induction n with
  | zero => rfl
  | succ n ih =>
    rw [movePipesTicks_succ, (movePipes_play env _ (hrun n (Nat.lt_succ_self n))).2,
      forEachPipe_rects, ih (fun k hk => hrun k (Nat.lt_succ_of_lt hk)),
      Function.iterate_succ_apply']

/-- A rectangle whose right edge is at `896`, through `n` passes. -/
theorem passRects_iterate_single (r : Rect) (hr : r.right = 896) (n : ℕ) :
    (n ≤ 896 → passRects^[n] [r] = [{ r with left := r.left - n }]) ∧
    (897 ≤ n → passRects^[n] [r] = []) := by
  have hms : moveSpeed = 1 := rfl
  have hlow : ∀ k : ℕ, k ≤ 896 → passRects^[k] [r] = [{ r with left := r.left - k }] := by
    intro k
    induction k with
    | zero =>
      intro _
      simp
    | succ k ih =>
      intro hk
      have hkq : (k : ℚ) + 1 ≤ 896 := by exact_mod_cast hk
      rw [Function.iterate_succ_apply', ih (by omega)]
      have hvis : 0 < ({ r with left := r.left - k } : Rect).right := by
        simp only [Rect.right] at hr ⊢
        linarith
      unfold passRects
      simp only [List.filter_cons, hvis, decide_True, if_true, List.filter_nil, List.map_cons,
        List.map_nil, hms]
      congr 2
      push_cast
      ring
  refine ⟨hlow n, ?_⟩
  intro hn
  obtain ⟨j, rfl⟩ : ∃ j, n = j + 897 := ⟨n - 897, by omega⟩
  rw [Function.iterate_add_apply]
  have h897 : passRects^[897] [r] = [] := by
    rw [Function.iterate_succ_apply', hlow 896 (le_refl _)]
    have hgone : decide (0 < ({ r with left := r.left - (896 : ℕ) } : Rect).right) = false := by
      apply decide_eq_false
      simp only [Rect.right] at hr ⊢
      push_cast
      linarith
    unfold passRects
    simp only [List.filter_cons, hgone, List.filter_nil]
    rfl
  rw [h897, passRects_iterate_nil]

/-- C7 (amended): an obstacle pair spawned by `createPipes` in a viewport 800
wide is appended to the obstacle set at left edge 800 with width 96. With
`moveSpeed = 1`, after `n` passes of `movePipes`, each executed in phase `Play`
(no collision has ended the run before it), and whatever other pipes are in the
set: for `n ≤ 896` both barriers are still in the set, behind the older pipes,
with left edge `800 - n` and right edge `896 - n` (after 800 passes: left edge 0,
right edge 96); for `n ≥ 897` they are gone, pass 897 being the first that reads
a right edge `≤ 0`. The older pipes are moved and removed by the same rule
(`passRects`). -/
theorem pipe_removed_by_pass_897 (env : Env) (rand : ℚ) (s : State) (n : ℕ)
    (hvw : env.vw = 800) (hPlay : s.gameState = .Play) (hspawn : 120 ≤ s.pipeTimer)
    (hrun : ∀ k < n, (movePipesTicks env k (createPipes env rand s)).gameState = .Play) :
    (createPipes env rand s).pipes = s.pipes ++ [topPipeOf env rand, bottomPipeOf env rand] ∧
    (topPipeOf env rand).left = 800 ∧ (bottomPipeOf env rand).left = 800 ∧
    (topPipeOf env rand).width = 96 ∧ (bottomPipeOf env rand).width = 96 ∧
    moveSpeed = 1 ∧
    (n ≤ 896 →
      (movePipesTicks env n (createPipes env rand s)).pipes.map Pipe.getBoundingClientRect =
        passRects^[n] (s.pipes.map Pipe.getBoundingClientRect) ++
          [{ (topPipeOf env rand).getBoundingClientRect with left := 800 - n },
           { (bottomPipeOf env rand).getBoundingClientRect with left := 800 - n }] ∧
      ({ (topPipeOf env rand).getBoundingClientRect with left := 800 - n } : Rect).right =
        896 - n ∧
      ({ (bottomPipeOf env rand).getBoundingClientRect with left := 800 - n } : Rect).right =
        896 - n) ∧
    (897 ≤ n →
      (movePipesTicks env n (createPipes env rand s)).pipes.map Pipe.getBoundingClientRect =
        passRects^[n] (s.pipes.map Pipe.getBoundingClientRect)) := by
  have hw : pipeWidthOf env.vw = 96 := by rw [hvw]; exact pipeWidthOf_800
  have hvwq : (env.vw : ℚ) = 800 := by rw [hvw]; norm_num
  have hpipes : (createPipes env rand s).pipes =
      s.pipes ++ [topPipeOf env rand, bottomPipeOf env rand] := by
    rw [(createPipes_play env rand s hPlay).2.2, if_pos (by omega)]
  have hT : (topPipeOf env rand).getBoundingClientRect.right = 896 := by
    simp only [topPipeOf, Pipe.getBoundingClientRect, Rect.right, hw, hvwq]; norm_num
  have hB : (bottomPipeOf env rand).getBoundingClientRect.right = 896 := by
    simp only [bottomPipeOf, Pipe.getBoundingClientRect, Rect.right, hw, hvwq]; norm_num
  have hTl : (topPipeOf env rand).getBoundingClientRect.left = 800 := hvwq
  have hBl : (bottomPipeOf env rand).getBoundingClientRect.left = 800 := hvwq
  have hrects := movePipesTicks_rects env (createPipes env rand s) n hrun
  rw [hpipes, List.map_append, passRects_iterate_append] at hrects
  have hsplit : [topPipeOf env rand, bottomPipeOf env rand].map Pipe.getBoundingClientRect =
      [(topPipeOf env rand).getBoundingClientRect] ++
        [(bottomPipeOf env rand).getBoundingClientRect] := rfl
  rw [hsplit, passRects_iterate_append] at hrects
  refine ⟨hpipes, hvwq, hvwq, hw, hw, rfl, ?_, ?_⟩
  · intro hn
    rw [(passRects_iterate_single _ hT n).1 hn, (passRects_iterate_single _ hB n).1 hn,
      hTl, hBl] at hrects
    refine ⟨hrects, ?_, ?_⟩
    · simp only [Rect.right, topPipeOf, Pipe.getBoundingClientRect, hw]; ring
    · simp only [Rect.right, bottomPipeOf, Pipe.getBoundingClientRect, hw]; ring
  · intro hn
    rw [(passRects_iterate_single _ hT n).2 hn, (passRects_iterate_single _ hB n).2 hn] at hrects
    simpa using hrects

/-- Witness for C7 (amended): the pair spawned in the 800 by 600 viewport with
the bird flying in the gap, so that all 897 passes run in phase `Play`, is gone
after 897 passes. -/
theorem pipe_removed_by_pass_897_witness :
    (movePipesTicks fixtureEnv 897 (createPipes fixtureEnv (1 / 2) aboutToSpawn)).pipes.map
      Pipe.getBoundingClientRect = [] := by
  have h := (pipe_removed_by_pass_897 fixtureEnv (1 / 2) aboutToSpawn 897 rfl rfl (by decide)
    (fun k hk => ((spawned_pair_track fixtureEnv (1 / 2) aboutToSpawn rfl rfl (by decide) rfl
      fixture_free).2.1 k (by omega)).1)).2.2.2.2.2.2.2 (le_refl _)
  rw [show aboutToSpawn.pipes = [] from rfl, List.map_nil, passRects_iterate_nil] at h
  exact h

/-- A pass of `movePipes` over a document that holds a single pipe is one run of
the callback on that pipe. -/
theorem movePipes_single (env : Env) (s : State) (q : Pipe) (hPlay : s.gameState = .Play)
    (hq : s.pipes = [q]) :
    (movePipes env s).score = (movePipesEach env s q).1.score ∧
    (movePipes env s).pipes = (movePipesEach env s q).2.toList := by
  unfold movePipes
  rw [if_neg (by simp [hPlay]), hq]
  simp [requestAnimationFrame, forEachPipe]

/-! ## Cancelling the loops at the end of a run (C10) -/

/-- The floor branch of `applyGravity` returns right after `gameOver`: when a call
of `applyGravity` ends the run, the three handles are `null` afterwards. -/
theorem applyGravity_end_handles (env : Env) (s : State) (hPlay : s.gameState = .Play)
    (hEnd : (applyGravity env s).gameState = .End) :
    (applyGravity env s).rafMovePipes = none ∧
    (applyGravity env s).rafGravity = none ∧
    (applyGravity env s).rafCreatePipes = none := by
  unfold applyGravity at hEnd ⊢
  rw [if_neg (by simp [hPlay])] at hEnd ⊢
  simp only [] at hEnd ⊢
  split_ifs at hEnd ⊢ with h1 h2 h2
  · rw [gameOver_eq _ (by simp [hPlay])]
    exact ⟨rfl, rfl, rfl⟩
  · simp [requestAnimationFrame, hPlay] at hEnd
  · rw [gameOver_eq _ (by simp [hPlay])]
    exact ⟨rfl, rfl, rfl⟩
  · simp [requestAnimationFrame, hPlay] at hEnd

/-- Every call of `movePipes` in a running game, also one that ends the run, ends
by scheduling `movePipes` again and storing the handle in `rafMovePipes`. -/
theorem movePipes_reschedules (env : Env) (s : State) (hPlay : s.gameState = .Play) :
    ∃ h, (movePipes env s).rafMovePipes = some h ∧
      (h, Callback.movePipes) ∈ (movePipes env s).scheduled := by
  unfold movePipes
  rw [if_neg (by simp [hPlay])]
  exact ⟨_, rfl, by simp [requestAnimationFrame]⟩

/-- C10 (the code at the failing input): a pass of `movePipes` over a pipe that
overlaps the bird ends the run, and at the end of that pass `rafMovePipes` holds
a fresh handle and `movePipes` is scheduled under it; only the other two handles
are `null`. -/
theorem movePipes_collision_keeps_callback :
    pipeOnBird.gameState = .Play ∧
    (movePipes fixtureEnv pipeOnBird).gameState = .End ∧
    (movePipes fixtureEnv pipeOnBird).rafMovePipes = some 7 ∧
    (movePipes fixtureEnv pipeOnBird).rafGravity = none ∧
    (movePipes fixtureEnv pipeOnBird).rafCreatePipes = none ∧
    (movePipes fixtureEnv pipeOnBird).scheduled = [(7, Callback.movePipes)] := by
  refine ⟨rfl, ?_⟩
  simp [movePipes, pipeOnBird, fixtureEnv, forEachPipe, movePipesEach, State.init, isCollision,
    Pipe.getBoundingClientRect, Rect.right, gameOver, cancelLoops, cancelIfSet,
    cancelAnimationFrame, requestAnimationFrame, moveSpeed]
  norm_num

end FlappyBomb
